import Mathlib

/-!
Formal model of the voxel world engine of the `free_hytale` repository:
block metadata (`src/world/BlockTypes.ts`), chunk-key and block-cache-key
strings (`src/utils/math.ts`), the recency cache (`src/utils/LRUCache.ts`),
the terrain generator (`src/world/TerrainGenerator.ts`), chunks and meshing
(`src/world/Chunk.ts`) and the world streaming/cache layer
(`src/world/World.ts`).

Modelling conventions:
* block identifiers are the numeric enum values, so `Nat`;
* JavaScript strings are modelled as `List Char`;
* the float-valued noise primitives (simplex noise instances and the
  `Math.sin`-based placement hashes) are abstracted as unconstrained
  rational-valued oracle functions; every terrain formula built on top of
  them is translated exactly, over `ℚ`;
* `Math.random()` draws inside tree placement are abstracted as an
  explicit choice structure, so theorems quantify over all outcomes;
* mutation is modelled by explicit state passing.
-/

/-! ## Block metadata (`BlockTypes.ts`) -/

namespace BlockTypeIds

def AIR : Nat := 0
def GRASS : Nat := 1
def DIRT : Nat := 2
def STONE : Nat := 3
def SAND : Nat := 4
def WATER : Nat := 5
def WOOD : Nat := 6
def LEAVES : Nat := 7
def SNOW : Nat := 8
def BEDROCK : Nat := 9
def GRAVEL : Nat := 10
def CLAY : Nat := 11
def ICE : Nat := 12
def PACKED_ICE : Nat := 13
def DEEPSLATE : Nat := 14
def COBBLESTONE : Nat := 15
def MOSS_STONE : Nat := 16
def RED_SAND : Nat := 17
def TERRACOTTA : Nat := 18
def GRANITE : Nat := 19
def DIORITE : Nat := 20
def ANDESITE : Nat := 21
def COAL_ORE : Nat := 22
def IRON_ORE : Nat := 23
def GOLD_ORE : Nat := 24
def DIAMOND_ORE : Nat := 25
def LAVA : Nat := 26
def SNOW_BLOCK : Nat := 27
def PODZOL : Nat := 28
def COARSE_DIRT : Nat := 29
def TALL_GRASS : Nat := 30
def FERN : Nat := 31
def DEAD_BUSH : Nat := 32
def FLOWER_RED : Nat := 33
def FLOWER_YELLOW : Nat := 34
def FLOWER_BLUE : Nat := 35
def FLOWER_WHITE : Nat := 36
def MUSHROOM_RED : Nat := 37
def MUSHROOM_BROWN : Nat := 38

end BlockTypeIds

/-- `transparent` field of the `BLOCKS` record; a missing entry defaults to
`true` (`BLOCKS[type]?.transparent ?? true`). -/
def isBlockTransparent (b : Nat) : Bool :=
  match b with
  | 0 => true   -- AIR
  | 1 => false  -- GRASS
  | 2 => false  -- DIRT
  | 3 => false  -- STONE
  | 4 => false  -- SAND
  | 5 => true   -- WATER
  | 6 => false  -- WOOD
  | 7 => true   -- LEAVES
  | 8 => false  -- SNOW
  | 9 => false  -- BEDROCK
  | 10 => false -- GRAVEL
  | 11 => false -- CLAY
  | 12 => true  -- ICE
  | 13 => false -- PACKED_ICE
  | 14 => false -- DEEPSLATE
  | 15 => false -- COBBLESTONE
  | 16 => false -- MOSS_STONE
  | 17 => false -- RED_SAND
  | 18 => false -- TERRACOTTA
  | 19 => false -- GRANITE
  | 20 => false -- DIORITE
  | 21 => false -- ANDESITE
  | 22 => false -- COAL_ORE
  | 23 => false -- IRON_ORE
  | 24 => false -- GOLD_ORE
  | 25 => false -- DIAMOND_ORE
  | 26 => true  -- LAVA
  | 27 => false -- SNOW_BLOCK
  | 28 => false -- PODZOL
  | 29 => false -- COARSE_DIRT
  | 30 => true  -- TALL_GRASS
  | 31 => true  -- FERN
  | 32 => true  -- DEAD_BUSH
  | 33 => true  -- FLOWER_RED
  | 34 => true  -- FLOWER_YELLOW
  | 35 => true  -- FLOWER_BLUE
  | 36 => true  -- FLOWER_WHITE
  | 37 => true  -- MUSHROOM_RED
  | 38 => true  -- MUSHROOM_BROWN
  | _ => true   -- unknown identifier: `?? true`

/-- `solid` field of the `BLOCKS` record; a missing entry defaults to
`false` (`BLOCKS[type]?.solid ?? false`). -/
def isBlockSolid (b : Nat) : Bool :=
  match b with
  | 0 => false  -- AIR
  | 5 => false  -- WATER
  | 26 => false -- LAVA
  | 30 => false | 31 => false | 32 => false | 33 => false | 34 => false
  | 35 => false | 36 => false | 37 => false | 38 => false
  | 1 => true | 2 => true | 3 => true | 4 => true | 6 => true | 7 => true
  | 8 => true | 9 => true | 10 => true | 11 => true | 12 => true
  | 13 => true | 14 => true | 15 => true | 16 => true | 17 => true
  | 18 => true | 19 => true | 20 => true | 21 => true | 22 => true
  | 23 => true | 24 => true | 25 => true | 27 => true | 28 => true
  | 29 => true
  | _ => false  -- unknown identifier: `?? false`

/-- `VEGETATION_SET` of `Chunk.ts`: block types rendered as cross
billboards. -/
def VEGETATION_SET : List Nat := [30, 31, 32, 33, 34, 35, 36, 37, 38]

/-- `isVegetationBlock` of `Chunk.ts`. -/
def isVegetationBlock (b : Nat) : Bool := VEGETATION_SET.contains b

/-! ## Key strings (`src/utils/math.ts` and `World.ts`)

JavaScript strings are modelled as `List Char`; decimal stringification of
an integer is modelled by `intChars`. -/

/-- Fuel-indexed digit expansion (structural recursion, so it reduces in
the kernel); `n + 1` units of fuel always suffice. -/
def natCharsAux : Nat → Nat → List Char
  | 0, _ => []
  | fuel + 1, n =>
    if n < 10 then [Char.ofNat (48 + n)]
    else natCharsAux fuel (n / 10) ++ [Char.ofNat (48 + n % 10)]

/-- Decimal digits of a natural number, most significant first; the
character-level model of JavaScript number-to-string conversion for
non-negative integers. -/
def natChars (n : Nat) : List Char := natCharsAux (n + 1) n

theorem natCharsAux_congr :
    ∀ {f1 f2 n : Nat}, n < f1 → n < f2 →
      natCharsAux f1 n = natCharsAux f2 n := by
  intro f1
  induction f1 with
  | zero => omega
  | succ f ih =>
    intro f2 n h1 h2
    cases f2 with
    | zero => omega
    | succ f2' =>
      simp only [natCharsAux]
      by_cases h : n < 10
      · rw [if_pos h, if_pos h]
      · rw [if_neg h, if_neg h]
        congr 1
        exact ih (by omega) (by omega)

/-- Decimal representation of an integer as characters. -/
def intChars (i : Int) : List Char :=
  if i < 0 then '-' :: natChars i.natAbs else natChars i.natAbs

/-- `createChunkKey(x, z)` returns the string `x + "," + z`. -/
def chunkKeyChars (x z : Int) : List Char :=
  intChars x ++ ',' :: intChars z

/-- The block-cache key `chunkKey + "_" + bx + "_" + by + "_" + bz`
built by `World.getBlockAt` and `World.setBlock`. -/
def cacheKeyChars (cx cz bx by_ bz : Int) : List Char :=
  chunkKeyChars cx cz ++ '_' :: (intChars bx ++ '_' :: (intChars by_ ++ '_' :: intChars bz))

/-- `String.prototype.startsWith`: does `s` start with `p`? -/
def strStartsWith : List Char → List Char → Bool
  | _, [] => true
  | [], _ :: _ => false
  | c :: s, p :: ps => c == p && strStartsWith s ps

/-- A JavaScript `Map` modelled as an association list in insertion order
(head oldest); `alLookup` is `Map.get`. -/
def alLookup {κ ν : Type} [BEq κ] (l : List (κ × ν)) (k : κ) : Option ν :=
  (l.find? (fun e => e.1 == k)).map (·.2)

/-- `Map.delete`: drop the entry with key `k`, keeping order. -/
def alErase {κ ν : Type} [BEq κ] (l : List (κ × ν)) (k : κ) : List (κ × ν) :=
  l.filter (fun e => !(e.1 == k))

/-! ## The recency cache (`LRUCache.ts`)

A JavaScript `Map` iterates in insertion order; the cache is an
association list whose head is the oldest entry.  Values are block
identifiers (the only instantiation the world uses). -/

structure LRUCache where
  entries : List (List Char × Nat)
  maxSize : Nat

namespace LRUCache

/-- Raw `Map.get`-style lookup (no recency update). -/
def lookup (c : LRUCache) (k : List Char) : Option Nat :=
  alLookup c.entries k

/-- Remove the entry with the given key, keeping every other entry in
order. -/
def eraseEntry (l : List (List Char × Nat)) (k : List Char) :
    List (List Char × Nat) :=
  alErase l k

/-- `get`: on a hit the entry is moved to the most-recent end; on a miss
nothing changes. -/
def get (c : LRUCache) (k : List Char) : Option Nat × LRUCache :=
  match c.lookup k with
  | some v => (some v, { c with entries := eraseEntry c.entries k ++ [(k, v)] })
  | none => (none, c)

/-- `set`: an existing key is re-inserted at the most-recent end; if the
cache is full, the oldest entry (the head) is evicted first. -/
def set (c : LRUCache) (k : List Char) (v : Nat) : LRUCache :=
  if (c.lookup k).isSome then
    { c with entries := eraseEntry c.entries k ++ [(k, v)] }
  else if c.maxSize ≤ c.entries.length then
    { c with entries := c.entries.tail ++ [(k, v)] }
  else
    { c with entries := c.entries ++ [(k, v)] }

/-- `delete`: remove one key. -/
def delete (c : LRUCache) (k : List Char) : LRUCache :=
  { c with entries := eraseEntry c.entries k }

/-- `deleteByPrefix`-style bulk removal: drop every entry whose key
starts with `p`. -/
def deleteStartingWith (c : LRUCache) (p : List Char) : LRUCache :=
  { c with entries := c.entries.filter (fun e => !(strStartsWith e.1 p)) }

/-- The empty cache (`new LRUCache(maxSize)`). -/
def empty (maxSize : Nat) : LRUCache := ⟨[], maxSize⟩

end LRUCache

/-! ## Character-level facts about the key strings

These support the prefix-based cache eviction (`World.clearChunkCache`
deletes every cache key starting with `chunkKey + "_"`). -/

theorem natChars_eq (n : Nat) : natChars n =
    if n < 10 then [Char.ofNat (48 + n)]
    else natChars (n / 10) ++ [Char.ofNat (48 + n % 10)] := by
  show natCharsAux (n + 1) n = _
  rw [natCharsAux]
  by_cases h : n < 10
  · rw [if_pos h, if_pos h]
  · rw [if_neg h, if_neg h]
    congr 1
    exact natCharsAux_congr (by omega) (by omega)

theorem digit_char_ok {d : Nat} (h : d < 10) :
    Char.ofNat (48 + d) ≠ ',' ∧ Char.ofNat (48 + d) ≠ '_' ∧
      Char.ofNat (48 + d) ≠ '-' := by
  interval_cases d <;> exact ⟨by decide, by decide, by decide⟩

theorem digit_char_inj {d e : Nat} (hd : d < 10) (he : e < 10)
    (h : Char.ofNat (48 + d) = Char.ofNat (48 + e)) : d = e := by
  interval_cases d <;> interval_cases e <;> simp_all

theorem natChars_sep_free (n : Nat) :
    ∀ c ∈ natChars n, c ≠ ',' ∧ c ≠ '_' ∧ c ≠ '-' := by
  induction n using Nat.strong_induction_on with
  | _ n ih =>
    rw [natChars_eq n]
    by_cases h : n < 10
    · rw [if_pos h]
      intro c hc
      simp only [List.mem_singleton] at hc
      subst hc; exact digit_char_ok h
    · rw [if_neg h]
      intro c hc
      rcases List.mem_append.mp hc with hm | hm
      · exact ih (n / 10) (Nat.div_lt_self (by omega) (by omega)) c hm
      · simp only [List.mem_singleton] at hm
        subst hm; exact digit_char_ok (Nat.mod_lt _ (by omega))

theorem natChars_ne_nil (n : Nat) : natChars n ≠ [] := by
  rw [natChars_eq n]; split <;> simp

theorem natChars_inj : ∀ {m n : Nat}, natChars m = natChars n → m = n := by
  intro m
  induction m using Nat.strong_induction_on with
  | _ m ih =>
    intro n h
    rw [natChars_eq m, natChars_eq n] at h
    by_cases h1 : m < 10 <;> by_cases h2 : n < 10
    · rw [if_pos h1, if_pos h2] at h
      simp only [List.cons.injEq, and_true] at h
      exact digit_char_inj h1 h2 h
    · exfalso
      rw [if_pos h1, if_neg h2] at h
      have hlen := congrArg List.length h
      simp only [List.length_singleton, List.length_append] at hlen
      have hz : (natChars (n / 10)).length = 0 := by omega
      exact natChars_ne_nil _ (List.length_eq_zero.mp hz)
    · exfalso
      rw [if_neg h1, if_pos h2] at h
      have hlen := congrArg List.length h
      simp only [List.length_singleton, List.length_append] at hlen
      have hz : (natChars (m / 10)).length = 0 := by omega
      exact natChars_ne_nil _ (List.length_eq_zero.mp hz)
    · rw [if_neg h1, if_neg h2] at h
      obtain ⟨hq, hr⟩ := List.append_inj' h (by simp)
      have hq' := ih (m / 10) (Nat.div_lt_self (by omega) (by omega)) hq
      simp only [List.cons.injEq, and_true] at hr
      have hr' := digit_char_inj (Nat.mod_lt _ (by omega))
        (Nat.mod_lt _ (by omega)) hr
      omega

theorem intChars_sep_free (i : Int) :
    ∀ c ∈ intChars i, c ≠ ',' ∧ c ≠ '_' := by
  intro c hc
  unfold intChars at hc
  split at hc
  · rcases List.mem_cons.mp hc with h | h
    · subst h; exact ⟨by decide, by decide⟩
    · exact ⟨(natChars_sep_free _ c h).1, (natChars_sep_free _ c h).2.1⟩
  · exact ⟨(natChars_sep_free _ c hc).1, (natChars_sep_free _ c hc).2.1⟩

theorem intChars_inj : ∀ {i j : Int}, intChars i = intChars j → i = j := by
  intro i j h
  unfold intChars at h
  by_cases h1 : i < 0 <;> by_cases h2 : j < 0
  · rw [if_pos h1, if_pos h2] at h
    simp only [List.cons.injEq, true_and] at h
    have := natChars_inj h; omega
  · exfalso
    rw [if_pos h1, if_neg h2] at h
    have : '-' ∈ natChars j.natAbs := h ▸ List.mem_cons_self _ _
    exact (natChars_sep_free _ _ this).2.2 rfl
  · exfalso
    rw [if_neg h1, if_pos h2] at h
    have : '-' ∈ natChars i.natAbs := h.symm ▸ List.mem_cons_self _ _
    exact (natChars_sep_free _ _ this).2.2 rfl
  · rw [if_neg h1, if_neg h2] at h
    have := natChars_inj h; omega

theorem strStartsWith_nil (s : List Char) : strStartsWith s [] = true := by
  cases s <;> rfl

theorem strStartsWith_append (p t : List Char) :
    strStartsWith (p ++ t) p = true := by
  induction p with
  | nil => exact strStartsWith_nil t
  | cons c p ih => simp [strStartsWith, ih]

/-- Keys of the form `xs ++ sep :: u` can only share a prefix up to `sep`
when the parts before `sep` agree, provided neither part contains `sep`. -/
theorem strStartsWith_sep {sep : Char} :
    ∀ (xs : List Char), sep ∉ xs → ∀ (ys : List Char), sep ∉ ys →
      ∀ (u v : List Char),
      (strStartsWith (ys ++ sep :: v) (xs ++ sep :: u) = true ↔
        xs = ys ∧ strStartsWith v u = true) := by
  intro xs
  induction xs with
  | nil =>
    intro _ ys hy u v
    cases ys with
    | nil => simp [strStartsWith]
    | cons y ys' =>
      have hne : (y == sep) = false := by
        simp only [List.mem_cons, not_or] at hy
        simp [beq_eq_false_iff_ne]
        exact fun e => hy.1 e.symm
      simp [strStartsWith, hne]
  | cons x xs' ih =>
    intro hx ys hy u v
    simp only [List.mem_cons, not_or] at hx
    cases ys with
    | nil =>
      have hne : (sep == x) = false := by
        simp only [beq_eq_false_iff_ne, ne_eq]
        exact fun e => hx.1 e
      simp [strStartsWith, hne]
    | cons y ys' =>
      simp only [List.mem_cons, not_or] at hy
      have iht := ih hx.2 ys' hy.2 u v
      simp only [List.cons_append, strStartsWith, Bool.and_eq_true, beq_iff_eq]
      constructor
      · rintro ⟨he, hrest⟩
        obtain ⟨hxy, hsw⟩ := iht.mp hrest
        exact ⟨by rw [he, hxy], hsw⟩
      · rintro ⟨he, hsw⟩
        obtain ⟨h1, h2⟩ := List.cons.injEq x xs' y ys' ▸ he
        exact ⟨h1.symm, iht.mpr ⟨h2, hsw⟩⟩

theorem append_sep_inj {sep : Char} :
    ∀ (xs : List Char), sep ∉ xs → ∀ (ys : List Char), sep ∉ ys →
      ∀ (u v : List Char), xs ++ sep :: u = ys ++ sep :: v →
      xs = ys ∧ u = v := by
  intro xs
  induction xs with
  | nil =>
    intro _ ys hy u v h
    cases ys with
    | nil => simpa using h
    | cons y ys' =>
      exfalso
      simp only [List.nil_append, List.cons_append, List.cons.injEq] at h
      exact hy (h.1 ▸ List.mem_cons_self _ _)
  | cons x xs' ih =>
    intro hx ys hy u v h
    simp only [List.mem_cons, not_or] at hx
    cases ys with
    | nil =>
      exfalso
      simp only [List.cons_append, List.nil_append, List.cons.injEq] at h
      exact hx.1 h.1.symm
    | cons y ys' =>
      simp only [List.mem_cons, not_or] at hy
      simp only [List.cons_append, List.cons.injEq] at h
      obtain ⟨hxs, hu⟩ := ih hx.2 ys' hy.2 u v h.2
      exact ⟨by rw [h.1, hxs], hu⟩

theorem chunkKeyChars_inj {a b c d : Int}
    (h : chunkKeyChars a b = chunkKeyChars c d) : a = c ∧ b = d := by
  unfold chunkKeyChars at h
  have h1 := append_sep_inj (intChars a)
    (fun hm => (intChars_sep_free a _ hm).1 rfl) (intChars c)
    (fun hm => (intChars_sep_free c _ hm).1 rfl) _ _ h
  exact ⟨intChars_inj h1.1, intChars_inj h1.2⟩

/-- Exactness of prefix-based eviction at the key-string level: the cache
key of voxel `(bx,by,bz)` in chunk `(c,d)` starts with `chunkKey(a,b) + "_"`
precisely when `(a,b) = (c,d)`. -/
theorem cacheKey_startsWith_iff (a b c d bx by_ bz : Int) :
    strStartsWith (cacheKeyChars c d bx by_ bz)
      (chunkKeyChars a b ++ ['_']) = true ↔ a = c ∧ b = d := by
  have ha : ',' ∉ intChars a := fun hm => (intChars_sep_free a _ hm).1 rfl
  have hc : ',' ∉ intChars c := fun hm => (intChars_sep_free c _ hm).1 rfl
  have hb : '_' ∉ intChars b := fun hm => (intChars_sep_free b _ hm).2 rfl
  have hd : '_' ∉ intChars d := fun hm => (intChars_sep_free d _ hm).2 rfl
  unfold cacheKeyChars chunkKeyChars
  constructor
  · intro h
    rw [List.append_assoc, List.append_assoc] at h
    simp only [List.cons_append, List.nil_append] at h
    have h1 := (strStartsWith_sep (intChars a) ha (intChars c) hc
      (intChars b ++ '_' :: []) (intChars d ++ '_' ::
        (intChars bx ++ '_' :: (intChars by_ ++ '_' :: intChars bz)))).mp
      (by simpa using h)
    have h2 := (strStartsWith_sep (intChars b) hb (intChars d) hd
      [] (intChars bx ++ '_' :: (intChars by_ ++ '_' :: intChars bz))).mp
      h1.2
    exact ⟨intChars_inj h1.1, intChars_inj h2.1⟩
  · rintro ⟨rfl, rfl⟩
    have : (intChars a ++ ',' :: intChars b) ++ '_' ::
        (intChars bx ++ '_' :: (intChars by_ ++ '_' :: intChars bz)) =
        ((intChars a ++ ',' :: intChars b) ++ ['_']) ++
        (intChars bx ++ '_' :: (intChars by_ ++ '_' :: intChars bz)) := by
      simp
    rw [this]
    exact strStartsWith_append _ _

/-! ## Association-list lemmas -/

section AssocList

variable {κ ν : Type} [BEq κ] [LawfulBEq κ]

theorem alLookup_nil (k : κ) : alLookup ([] : List (κ × ν)) k = none := rfl

theorem alLookup_cons (e : κ × ν) (t : List (κ × ν)) (k : κ) :
    alLookup (e :: t) k = if e.1 == k then some e.2 else alLookup t k := by
  simp only [alLookup, List.find?_cons]
  cases h : (e.1 == k) <;> simp [h]

theorem alLookup_append (l₁ l₂ : List (κ × ν)) (k : κ) :
    alLookup (l₁ ++ l₂) k = (alLookup l₁ k).or (alLookup l₂ k) := by
  simp only [alLookup, List.find?_append]
  cases List.find? (fun e => e.1 == k) l₁ <;> simp

theorem alLookup_singleton (k : κ) (v : ν) : alLookup [(k, v)] k = some v := by
  simp [alLookup]

theorem alLookup_singleton_ne {k k' : κ} (v : ν) (h : ¬(k = k')) :
    alLookup [(k, v)] k' = none := by
  simp [alLookup]
  exact fun e => absurd e h

theorem alErase_cons (e : κ × ν) (t : List (κ × ν)) (k : κ) :
    alErase (e :: t) k =
      if e.1 == k then alErase t k else e :: alErase t k := by
  simp only [alErase, List.filter]
  cases h : (e.1 == k) <;> simp [h]

theorem alLookup_erase_self (l : List (κ × ν)) (k : κ) :
    alLookup (alErase l k) k = none := by
  induction l with
  | nil => rfl
  | cons e t ih =>
    rw [alErase_cons]
    by_cases h : (e.1 == k)
    · rw [if_pos h]; exact ih
    · rw [if_neg h, alLookup_cons, if_neg h]; exact ih

theorem alLookup_erase_ne (l : List (κ × ν)) {k k' : κ} (h : ¬(k = k')) :
    alLookup (alErase l k) k' = alLookup l k' := by
  induction l with
  | nil => rfl
  | cons e t ih =>
    rw [alErase_cons, alLookup_cons]
    by_cases he : (e.1 == k)
    · rw [if_pos he, ih]
      have hne : (e.1 == k') = false := by
        rw [beq_eq_false_iff_ne]
        intro e'
        exact h ((eq_of_beq he).symm.trans e')
      rw [hne]
      simp
    · rw [if_neg he, alLookup_cons, ih]

theorem alLookup_isSome_append (l₁ l₂ : List (κ × ν)) (k : κ)
    (h : (alLookup l₁ k).isSome = true) :
    alLookup (l₁ ++ l₂) k = alLookup l₁ k := by
  rw [alLookup_append]
  cases hc : alLookup l₁ k with
  | none => rw [hc] at h; simp at h
  | some v => simp

end AssocList

/-! ## Terrain generator (`TerrainGenerator.ts`, `utils/noise.ts`)

The five seeded `SimplexNoise` instances created by `NoiseGenerator`
(`noise2D`, `noise3D`, `caveNoise`, `biomeNoise`, `erosionNoise`) and the
`Math.sin`-based placement hashes are pure functions of the seed, so they
are abstracted as unconstrained rational-valued oracle fields; every
formula built on them (`fbm`, ridge noise, the spline logic, the block
cascade) is translated exactly. -/

structure GenOracle where
  /-- `this.noise2D.noise2D` (instance seeded with `seed`). -/
  noise2D : ℚ → ℚ → ℚ
  /-- `this.noise3D.noise3D` (instance seeded with `seed + 1000`). -/
  noise3D : ℚ → ℚ → ℚ → ℚ
  /-- `this.caveNoise.noise3D` (instance seeded with `seed + 2000`). -/
  cave3D : ℚ → ℚ → ℚ → ℚ
  /-- `this.biomeNoise.noise2D` (instance seeded with `seed + 3000`). -/
  biome2D : ℚ → ℚ → ℚ
  /-- `this.erosionNoise.noise2D` (instance seeded with `seed + 4000`). -/
  erosion2D : ℚ → ℚ → ℚ
  /-- value of `abs(sin(x*12.9898 + z*78.233) * 43758.5453) % 1`
  (tree placement hash in `shouldPlaceTree`). -/
  hashTree : Int → Int → ℚ
  /-- value of `abs(sin(x*23.1407 + z*56.7891) * 28461.3254) % 1`
  (vegetation placement hash in `shouldPlaceVegetation`). -/
  hashVeg : Int → Int → ℚ
  /-- value of `abs(sin(x*45.2893 + z*89.1247) * 19283.4756) % 1`
  (vegetation type hash in `getVegetationType`). -/
  hashVegKind : Int → Int → ℚ

/-- `SimplexNoise.fbm`: accumulate `octaves` layers at geometrically
increasing frequency and decreasing amplitude, normalised by the total
amplitude.  Loop state: `(value, amplitude, frequency, maxValue)`. -/
def fbm (n2 : ℚ → ℚ → ℚ) (x y : ℚ) (octaves : Nat)
    (lacunarity persistence : ℚ) : ℚ :=
  let r := (List.range octaves).foldl
    (fun (acc : ℚ × ℚ × ℚ × ℚ) _ =>
      (acc.1 + n2 (x * acc.2.2.1) (y * acc.2.2.1) * acc.2.1,
        acc.2.1 * persistence, acc.2.2.1 * lacunarity, acc.2.2.2 + acc.2.1))
    (0, 1, 1, 0)
  r.1 / r.2.2.2

/-- `NoiseGenerator.getFBM2D(x, z, octaves, persistence, lacunarity, scale)`:
`fbm` of the main 2-D instance at `x * (1/scale)`. -/
def getFBM2D (o : GenOracle) (x z : Int) (octaves : Nat)
    (persistence lacunarity scale : ℚ) : ℚ :=
  fbm o.noise2D ((x : ℚ) * (1 / scale)) ((z : ℚ) * (1 / scale))
    octaves lacunarity persistence

/-- `NoiseGenerator.getRidgeNoise2D`: sharpened `1 - |noise|` octaves with
inter-octave weighting.  Loop state:
`(value, amplitude, frequency, maxValue, weight)`. -/
def getRidgeNoise2D (o : GenOracle) (x z : Int) (octaves : Nat)
    (persistence lacunarity scale : ℚ) : ℚ :=
  let r := (List.range octaves).foldl
    (fun (acc : ℚ × ℚ × ℚ × ℚ × ℚ) _ =>
      let n0 := |o.erosion2D ((x : ℚ) * acc.2.2.1) ((z : ℚ) * acc.2.2.1)|
      let n3 := (1 - n0) * (1 - n0) * acc.2.2.2.2
      (acc.1 + n3 * acc.2.1, acc.2.1 * persistence, acc.2.2.1 * lacunarity,
        acc.2.2.2.1 + acc.2.1, min 1 (n3 * 2)))
    (0, 1, 1 / scale, 0, 1)
  r.1 / r.2.2.2.1

/-- `NoiseGenerator.getTemperature`. -/
def getTemperature (o : GenOracle) (x z : Int) : ℚ :=
  fbm o.biome2D ((x : ℚ) * 0.001) ((z : ℚ) * 0.001) 2 2 0.5

/-- `NoiseGenerator.getHumidity`. -/
def getHumidity (o : GenOracle) (x z : Int) : ℚ :=
  fbm o.biome2D (((x : ℚ) + 500) * 0.001) (((z : ℚ) + 500) * 0.001) 2 2 0.5

/-- `NoiseGenerator.getContinentalness`. -/
def getContinentalness (o : GenOracle) (x z : Int) : ℚ :=
  getFBM2D o x z 2 0.5 2 1000

/-- `NoiseGenerator.getErosion`. -/
def getErosion (o : GenOracle) (x z : Int) : ℚ :=
  getFBM2D o (x + 10000) (z + 10000) 3 0.5 2 600

/-- `NoiseGenerator.getPeaksAndValleys`. -/
def getPeaksAndValleys (o : GenOracle) (x z : Int) : ℚ :=
  getRidgeNoise2D o x z 4 0.5 2 300

/-- `NoiseGenerator.getWeirdness`. -/
def getWeirdness (o : GenOracle) (x z : Int) : ℚ :=
  getFBM2D o (x + 20000) (z + 20000) 3 0.5 2 400

/-- `NoiseGenerator.getNoise3D(x, y, z, scale)`. -/
def getNoise3D (o : GenOracle) (x y z : Int) (scale : ℚ) : ℚ :=
  o.noise3D ((x : ℚ) / scale) ((y : ℚ) / scale) ((z : ℚ) / scale)

/-- `NoiseGenerator.getCaveNoise(x, y, z, scale)`. -/
def getCaveNoise (o : GenOracle) (x y z : Int) (scale : ℚ) : ℚ :=
  o.cave3D ((x : ℚ) / scale) ((y : ℚ) / scale) ((z : ℚ) / scale)

/-- `TerrainConfig` (the `seed` field is absorbed into the oracle, which
models all seed-derived primitives). -/
structure TerrainConfig where
  waterLevel : Int
  worldHeight : Int
  baseHeight : ℚ
  caveThreshold : ℚ
  caveScale : ℚ
  generateCaves : Bool
  generateOres : Bool
  generateRivers : Bool

/-- `DEFAULT_TERRAIN_CONFIG` (minus the seed). -/
def DEFAULT_TERRAIN_CONFIG : TerrainConfig :=
  { waterLevel := 64, worldHeight := 256, baseHeight := 70,
    caveThreshold := -0.4, caveScale := 40,
    generateCaves := true, generateOres := true, generateRivers := true }

structure BiomeData where
  temperature : ℚ
  humidity : ℚ
  name : String
  deriving DecidableEq

structure ColumnInfo where
  terrainHeight : Int
  biome : BiomeData
  continentalness : ℚ
  erosion : ℚ
  isOcean : Bool
  isBeach : Bool
  isMountain : Bool
  isRiver : Bool
  deriving DecidableEq

/-- `TerrainGenerator.determineBiome`. -/
def determineBiome (temp humidity height : ℚ) (isOcean isBeach : Bool) :
    BiomeData :=
  if isOcean = true then
    if temp < -0.5 then ⟨temp, humidity, "frozen_ocean"⟩
    else ⟨temp, humidity, "ocean"⟩
  else if isBeach = true then
    if temp < -0.3 then ⟨temp, humidity, "snowy_beach"⟩
    else ⟨temp, humidity, "beach"⟩
  else if height > 140 then ⟨temp, humidity, "mountain_peaks"⟩
  else if height > 110 then
    if temp < -0.2 then ⟨temp, humidity, "snowy_slopes"⟩
    else ⟨temp, humidity, "stony_peaks"⟩
  else if temp < -0.5 then
    if humidity > 0.2 then ⟨temp, humidity, "snowy_taiga"⟩
    else ⟨temp, humidity, "snowy_plains"⟩
  else if temp < -0.2 then
    if humidity > 0.3 then ⟨temp, humidity, "taiga"⟩
    else ⟨temp, humidity, "cold_plains"⟩
  else if temp < 0.3 then
    if humidity > 0.5 then ⟨temp, humidity, "jungle"⟩
    else if humidity > 0.2 then ⟨temp, humidity, "forest"⟩
    else if humidity > -0.2 then ⟨temp, humidity, "plains"⟩
    else ⟨temp, humidity, "savanna"⟩
  else if temp < 0.6 then
    if humidity > 0.3 then ⟨temp, humidity, "jungle"⟩
    else if humidity > 0 then ⟨temp, humidity, "savanna"⟩
    else ⟨temp, humidity, "desert"⟩
  else
    if humidity > 0.4 then ⟨temp, humidity, "jungle"⟩
    else if humidity > -0.3 then ⟨temp, humidity, "badlands"⟩
    else ⟨temp, humidity, "desert"⟩

/-- The spline bands of `calculateColumnInfo`:
`(baseHeight, heightMultiplier, isOcean, isBeach, isMountain)` as a
function of continentalness, erosion and peaks/valleys.  Every band
overwrites `baseHeight` and `heightMultiplier`, so the initial
`config.baseHeight` value never survives. -/
def splineBands (cfg : TerrainConfig)
    (continentalness erosion peaksValleys : ℚ) : ℚ × ℚ × Bool × Bool × Bool :=
  if continentalness < -0.4 then (25, 8, true, false, false)
  else if continentalness < -0.2 then (45, 12, true, false, false)
  else if continentalness < 0 then
    ((cfg.waterLevel : ℚ) - 1, 6, false, true, false)
  else if continentalness < 0.3 then
    (68, 15 + (1 - erosion) * 10, false, false, false)
  else if continentalness < 0.6 then
    (72, 25 + (1 - erosion) * 20, false, false, false)
  else if continentalness < 0.8 then
    (78, 45 + (1 - erosion) * 30, false, false, decide (erosion < 0))
  else
    (85, 80 + (peaksValleys * peaksValleys) * 100, false, false, true)

/-- The (unfloored) clamped terrain height of a column: base height plus
detail noise times the band multiplier, extra detail for mountains,
clamped to `[1, worldHeight - 10]`. -/
def columnHeightQ (o : GenOracle) (cfg : TerrainConfig) (x z : Int) : ℚ :=
  let bands := splineBands cfg (getContinentalness o x z) (getErosion o x z)
    (getPeaksAndValleys o x z)
  let th0 := bands.1 + (getFBM2D o x z 4 0.5 2 150) * bands.2.1
  let th1 := if bands.2.2.2.2 = true then th0 + (getFBM2D o x z 6 0.5 2 50) * 15
    else th0
  max 1 (min ((cfg.worldHeight : ℚ) - 10) th1)

/-- The pure column computation inside `calculateColumnInfo` (everything
except the memo lookup/insert). -/
def computeColumnInfo (o : GenOracle) (cfg : TerrainConfig) (x z : Int) :
    ColumnInfo :=
  let continentalness := getContinentalness o x z
  let erosion := getErosion o x z
  let weirdness := getWeirdness o x z
  let bands := splineBands cfg continentalness erosion
    (getPeaksAndValleys o x z)
  let isOcean := bands.2.2.1
  let isBeach := bands.2.2.2.1
  let isMountain := bands.2.2.2.2
  let terrainHeight := columnHeightQ o cfg x z
  let temperature := getTemperature o x z
  let humidity := getHumidity o x z
  let heightFactor := max 0 ((terrainHeight - 100) / 100)
  let adjustedTemp := temperature - heightFactor * 0.5
  let biome := determineBiome adjustedTemp humidity terrainHeight isOcean isBeach
  let isRiver := !isOcean && !isBeach && cfg.generateRivers &&
    decide (|weirdness| < 0.08) &&
    decide (terrainHeight < (cfg.waterLevel : ℚ) + 15)
  { terrainHeight := ⌊terrainHeight⌋, biome := biome,
    continentalness := continentalness, erosion := erosion,
    isOcean := isOcean, isBeach := isBeach, isMountain := isMountain,
    isRiver := isRiver }

/-- The mutable state of a `TerrainGenerator`: its per-column memo
(`columnCache`, a `Map` keyed by the string `x + "," + z`; the key is
modelled by the pair `(x, z)`, which `createChunkKey`-style strings are in
bijection with). -/
structure GenState where
  columnCache : List ((Int × Int) × ColumnInfo)

def GenState.lookupCol (s : GenState) (k : Int × Int) : Option ColumnInfo :=
  alLookup s.columnCache k

def emptyGenState : GenState := ⟨[]⟩

/-- `TerrainGenerator.calculateColumnInfo`: memoised per column. -/
def calculateColumnInfo (o : GenOracle) (cfg : TerrainConfig) (s : GenState)
    (x z : Int) : ColumnInfo × GenState :=
  match s.lookupCol (x, z) with
  | some info => (info, s)
  | none =>
    let info := computeColumnInfo o cfg x z
    (info, ⟨s.columnCache ++ [((x, z), info)]⟩)

/-- `TerrainGenerator.isCave`: two cave-noise samples averaged against a
depth-loosened threshold; suppressed within 5 blocks of the surface. -/
def isCave (o : GenOracle) (cfg : TerrainConfig) (x y z : Int)
    (surfaceHeight : Int) : Bool :=
  let caveNoise1 := getCaveNoise o x y z cfg.caveScale
  let caveNoise2 := getCaveNoise o x (y * 2) z (cfg.caveScale * 0.5)
  let combined := (caveNoise1 + caveNoise2 * 0.5) / 1.5
  let depthFactor := 1 - (y : ℚ) / (surfaceHeight : ℚ)
  let threshold := cfg.caveThreshold - depthFactor * 0.1
  if surfaceHeight - y < 5 then false
  else decide (combined < threshold)

/-- `TerrainGenerator.getSurfaceBlock`. -/
def getSurfaceBlock (o : GenOracle) (cfg : TerrainConfig) (x y z : Int)
    (terrainHeight : Int) (biome : BiomeData)
    (isOcean isBeach isMountain : Bool) : Nat :=
  open BlockTypeIds in
  let depthBelowSurface := terrainHeight - y
  let isTopLayer := y = terrainHeight
  if isBeach = true ∨ (y ≤ cfg.waterLevel + 3 ∧ cfg.waterLevel - 5 ≤ y) then
    if biome.temperature < -0.3 then SNOW else SAND
  else if isOcean = true then
    if depthBelowSurface ≤ 2 then
      if getNoise3D o x y z 10 > 0.3 then GRAVEL
      else if biome.temperature < -0.3 then GRAVEL
      else SAND
    else STONE
  else if isMountain = true ∧ terrainHeight > 130 then
    if isTopLayer then SNOW
    else if depthBelowSurface ≤ 2 then SNOW_BLOCK
    else STONE
  else if terrainHeight > 110 then
    if getNoise3D o x y z 8 > -0.2 then STONE else GRAVEL
  else if biome.name = "desert" ∨ biome.name = "badlands" then
    if biome.name = "badlands" ∧ depthBelowSurface > 1 then TERRACOTTA
    else SAND
  else if biome.name = "snowy_plains" ∨ biome.name = "snowy_taiga" ∨
      biome.name = "snowy_slopes" ∨ biome.name = "snowy_beach" then
    if isTopLayer then SNOW
    else if depthBelowSurface ≤ 3 then DIRT
    else STONE
  else if biome.name = "frozen_ocean" then
    if y ≥ cfg.waterLevel - 1 then ICE else WATER
  else if biome.name = "taiga" then
    if isTopLayer then PODZOL
    else if depthBelowSurface ≤ 3 then DIRT
    else STONE
  else if biome.name = "jungle" then
    if isTopLayer then
      if getNoise3D o x y z 6 > 0.3 then MOSS_STONE else GRASS
    else if depthBelowSurface ≤ 4 then DIRT
    else STONE
  else if biome.name = "savanna" then
    if isTopLayer then GRASS
    else if depthBelowSurface ≤ 2 then COARSE_DIRT
    else if depthBelowSurface ≤ 4 then DIRT
    else STONE
  else
    if isTopLayer then GRASS
    else if depthBelowSurface ≤ 3 then DIRT
    else STONE

/-- `TerrainGenerator.checkForOre`: four independently-offset 3-D noise
fields, each gated by a threshold and a y-range; no match returns AIR. -/
def checkForOre (o : GenOracle) (x y z : Int) : Nat :=
  open BlockTypeIds in
  if getNoise3D o x y z 8 > 0.72 ∧ y > 5 ∧ y < 128 then COAL_ORE
  else if getNoise3D o (x + 1000) y z 7 > 0.75 ∧ y > 5 ∧ y < 64 then IRON_ORE
  else if getNoise3D o (x + 2000) y z 6 > 0.82 ∧ y > 5 ∧ y < 32 then GOLD_ORE
  else if getNoise3D o (x + 3000) y z 5 > 0.88 ∧ y > 2 ∧ y < 16 then
    DIAMOND_ORE
  else AIR

/-- `TerrainGenerator.getUndergroundBlock`. -/
def getUndergroundBlock (o : GenOracle) (cfg : TerrainConfig)
    (x y z : Int) : Nat :=
  open BlockTypeIds in
  if getNoise3D o x y z 30 > 0.6 then
    let subNoise := getNoise3D o (x + 1000) y z 15
    if subNoise > 0.3 then GRANITE
    else if subNoise < -0.3 then DIORITE
    else ANDESITE
  else if cfg.generateOres = true ∧ checkForOre o x y z ≠ BlockTypeIds.AIR then
    checkForOre o x y z
  else if getNoise3D o x (y + 500) z 20 > 0.7 then GRAVEL
  else BlockTypeIds.STONE

/-- `TerrainGenerator.determineBlock`: the ordered rule cascade
(bedrock, caves, above-terrain water/air, surface layer, deepslate,
underground). -/
def determineBlock (o : GenOracle) (cfg : TerrainConfig) (x y z : Int)
    (column : ColumnInfo) : Nat :=
  open BlockTypeIds in
  let terrainHeight := column.terrainHeight
  if y ≤ 0 then BEDROCK
  else if y ≤ 3 ∧ |getNoise3D o x y z 5| < 0.3 + (y : ℚ) * 0.1 then BEDROCK
  else if cfg.generateCaves = true ∧ y ≤ terrainHeight ∧ y > 5 ∧
      isCave o cfg x y z terrainHeight = true then
    if y ≤ cfg.waterLevel - 10 ∧ y < 20 then LAVA else AIR
  else if y > terrainHeight then
    if column.isRiver = true ∧ y ≤ cfg.waterLevel then WATER
    else if y ≤ cfg.waterLevel then WATER
    else AIR
  else if y ≥ terrainHeight - 4 then
    getSurfaceBlock o cfg x y z terrainHeight column.biome
      column.isOcean column.isBeach column.isMountain
  else if y < 10 then DEEPSLATE
  else getUndergroundBlock o cfg x y z

/-- `TerrainGenerator.getBlockAt` (stateful: may populate the column
memo). -/
def tgGetBlockAt (o : GenOracle) (cfg : TerrainConfig) (s : GenState)
    (x y z : Int) : Nat × GenState :=
  let r := calculateColumnInfo o cfg s x z
  (determineBlock o cfg x y z r.1, r.2)

/-- `TerrainGenerator.getHeight`. -/
def tgGetHeight (o : GenOracle) (cfg : TerrainConfig) (s : GenState)
    (x z : Int) : Int × GenState :=
  let r := calculateColumnInfo o cfg s x z
  (r.1.terrainHeight, r.2)

/-- `TerrainGenerator.getBiome`. -/
def tgGetBiome (o : GenOracle) (cfg : TerrainConfig) (s : GenState)
    (x z : Int) : String × GenState :=
  let r := calculateColumnInfo o cfg s x z
  (r.1.biome.name, r.2)

/-- `String.prototype.includes`: some suffix of `s` starts with `pat`. -/
def charsContains (s pat : List Char) : Bool :=
  strStartsWith s pat ||
    match s with
    | [] => false
    | _ :: t => charsContains t pat

/-- `TerrainGenerator.shouldPlaceTree`.  The four threshold reassignments
in the source test mutually exclusive biome names, so they are rendered as
an if-chain. -/
def tgShouldPlaceTree (o : GenOracle) (cfg : TerrainConfig) (s : GenState)
    (x z : Int) : Bool × GenState :=
  let r := calculateColumnInfo o cfg s x z
  let column := r.1
  let res :=
    if column.isOcean = true ∨ column.isBeach = true then false
    else if column.biome.name = "desert" ∨ column.biome.name = "badlands" then
      false
    else if charsContains column.biome.name.toList
        ("snowy_plains".toList) = true then false
    else if column.terrainHeight > 120 then false
    else
      let threshold : ℚ :=
        if column.biome.name = "forest" then 0.97
        else if column.biome.name = "jungle" then 0.95
        else if column.biome.name = "taiga" ∨
            column.biome.name = "snowy_taiga" then 0.975
        else if column.biome.name = "savanna" then 0.995
        else 0.985
      decide (o.hashTree x z > threshold)
  (res, r.2)

/-- `TerrainGenerator.shouldPlaceVegetation`. -/
def tgShouldPlaceVegetation (o : GenOracle) (cfg : TerrainConfig)
    (s : GenState) (x z : Int) : Bool × GenState :=
  let r := calculateColumnInfo o cfg s x z
  let column := r.1
  let res :=
    if column.isOcean = true ∨ column.isBeach = true then false
    else if column.biome.name = "desert" then false
    else if column.biome.name = "badlands" then false
    else if charsContains column.biome.name.toList ("snowy".toList) = true then
      false
    else if column.terrainHeight > 130 then false
    else
      let threshold : ℚ :=
        if column.biome.name = "plains" then 0.55
        else if column.biome.name = "forest" then 0.65
        else if column.biome.name = "jungle" then 0.45
        else if column.biome.name = "taiga" then 0.70
        else if column.biome.name = "savanna" then 0.80
        else 0.75
      decide (o.hashVeg x z > threshold)
  (res, r.2)

/-- `TerrainGenerator.getVegetationType`. -/
def tgGetVegetationType (o : GenOracle) (cfg : TerrainConfig) (s : GenState)
    (x z : Int) : Nat × GenState :=
  open BlockTypeIds in
  let r := calculateColumnInfo o cfg s x z
  let column := r.1
  let value := o.hashVegKind x z
  let res :=
    if column.biome.name = "badlands" ∨ column.biome.name = "savanna" then
      if value > 0.95 then DEAD_BUSH else TALL_GRASS
    else if column.biome.name = "jungle" then
      if value < 0.3 then FERN
      else if value < 0.35 then FLOWER_RED
      else if value < 0.40 then FLOWER_WHITE
      else if value < 0.42 then MUSHROOM_RED
      else if value < 0.44 then MUSHROOM_BROWN
      else TALL_GRASS
    else if column.biome.name = "taiga" ∨
        column.biome.name = "snowy_taiga" then
      if value < 0.25 then FERN
      else if value < 0.30 then MUSHROOM_BROWN
      else if value < 0.33 then MUSHROOM_RED
      else TALL_GRASS
    else if column.biome.name = "forest" then
      if value < 0.15 then FERN
      else if value < 0.20 then FLOWER_BLUE
      else if value < 0.24 then FLOWER_WHITE
      else if value < 0.27 then MUSHROOM_BROWN
      else TALL_GRASS
    else
      if value < 0.08 then FLOWER_RED
      else if value < 0.14 then FLOWER_YELLOW
      else if value < 0.18 then FLOWER_BLUE
      else if value < 0.21 then FLOWER_WHITE
      else TALL_GRASS
  (res, r.2)

/-- `TerrainGenerator.getWaterLevel`. -/
def tgGetWaterLevel (cfg : TerrainConfig) : Int := cfg.waterLevel

/-- `TerrainGenerator.generateChunkData`: fills a dense array (modelled
as a function from the flat index `y*size*size + z*size + x`), then clears
the column memo before returning. -/
def generateChunkData (o : GenOracle) (cfg : TerrainConfig) (s : GenState)
    (chunkX chunkZ : Int) (chunkSize : Nat := 16) : (Nat → Nat) × GenState :=
  let worldHeight := cfg.worldHeight.toNat
  let r := (List.range chunkSize).foldl
    (fun (accx : (Nat → Nat) × GenState) x =>
      (List.range chunkSize).foldl
        (fun (acc : (Nat → Nat) × GenState) z =>
          let globalX := chunkX * (chunkSize : Int) + (x : Int)
          let globalZ := chunkZ * (chunkSize : Int) + (z : Int)
          let rc := calculateColumnInfo o cfg acc.2 globalX globalZ
          let data := (List.range worldHeight).foldl
            (fun (d : Nat → Nat) y =>
              let index := y * chunkSize * chunkSize + z * chunkSize + x
              fun i => if i = index then
                  determineBlock o cfg globalX (y : Int) globalZ rc.1
                else d i)
            acc.1
          (data, rc.2))
        accx)
    ((fun _ => 0), s)
  (r.1, ⟨[]⟩)

/-! ### Validity of the column memo

Every memo entry stores exactly the pure column computation for its key;
this is established at the empty state and preserved by every generator
operation, which makes the memo semantically transparent. -/

def ValidGen (o : GenOracle) (cfg : TerrainConfig) (s : GenState) : Prop :=
  ∀ x z info, s.lookupCol (x, z) = some info →
    info = computeColumnInfo o cfg x z

theorem validGen_empty (o : GenOracle) (cfg : TerrainConfig) :
    ValidGen o cfg emptyGenState := by
  intro x z info h
  simp [emptyGenState, GenState.lookupCol, alLookup] at h

theorem calcColumnInfo_fst {o : GenOracle} {cfg : TerrainConfig}
    {s : GenState} (h : ValidGen o cfg s) (x z : Int) :
    (calculateColumnInfo o cfg s x z).1 = computeColumnInfo o cfg x z := by
  unfold calculateColumnInfo
  cases hc : s.lookupCol (x, z) with
  | none => simp
  | some info => simpa using h x z info hc

theorem calcColumnInfo_snd (o : GenOracle) (cfg : TerrainConfig)
    (s : GenState) (x z : Int) :
    (calculateColumnInfo o cfg s x z).2 =
      match s.lookupCol (x, z) with
      | some _ => s
      | none => ⟨s.columnCache ++ [((x, z), computeColumnInfo o cfg x z)]⟩ := by
  unfold calculateColumnInfo
  cases s.lookupCol (x, z) <;> rfl

theorem calcColumnInfo_valid {o : GenOracle} {cfg : TerrainConfig}
    {s : GenState} (h : ValidGen o cfg s) (x z : Int) :
    ValidGen o cfg (calculateColumnInfo o cfg s x z).2 := by
  rw [calcColumnInfo_snd]
  cases hc : s.lookupCol (x, z) with
  | some info => exact h
  | none =>
    intro x' z' info h'
    simp only [GenState.lookupCol] at h'
    rw [alLookup_append] at h'
    cases hl : alLookup s.columnCache (x', z') with
    | some v =>
      rw [hl] at h'
      have h2 : some v = some info := h'
      injection h2 with hvi
      exact hvi.symm.trans (h x' z' v hl)
    | none =>
      rw [hl] at h'
      have h2 : alLookup [((x, z), computeColumnInfo o cfg x z)] (x', z') =
          some info := h'
      by_cases hk : ((x, z) : Int × Int) = (x', z')
      · injection hk with hk1 hk2
        subst hk1; subst hk2
        rw [alLookup_singleton] at h2
        injection h2 with hvi
        exact hvi.symm
      · rw [alLookup_singleton_ne _ hk] at h2
        cases h2

theorem calcColumnInfo_mem (o : GenOracle) (cfg : TerrainConfig)
    (s : GenState) (x z : Int) :
    (((calculateColumnInfo o cfg s x z).2).lookupCol (x, z)).isSome = true := by
  rw [calcColumnInfo_snd]
  cases hc : s.lookupCol (x, z) with
  | some info => simp [hc]
  | none =>
    show (alLookup (s.columnCache ++ [((x, z), _)]) (x, z)).isSome = true
    rw [alLookup_append]
    rw [GenState.lookupCol] at hc
    rw [hc]
    show (Option.or none (alLookup [((x, z), _)] (x, z))).isSome = true
    rw [alLookup_singleton]
    rfl

theorem calcColumnInfo_mono {o : GenOracle} {cfg : TerrainConfig}
    {s : GenState} {k : Int × Int}
    (h : (s.lookupCol k).isSome = true) (x z : Int) :
    ((calculateColumnInfo o cfg s x z).2.lookupCol k).isSome = true := by
  rw [calcColumnInfo_snd]
  cases hc : s.lookupCol (x, z) with
  | some info => exact h
  | none =>
    show (alLookup (s.columnCache ++ [((x, z), _)]) k).isSome = true
    rw [alLookup_append]
    rw [GenState.lookupCol] at h
    cases hl : alLookup s.columnCache k with
    | some v => simp
    | none => rw [hl] at h; simp at h

/-! ## Chunks (`Chunk.ts`)

`CHUNK_SIZE = 16`, `CHUNK_HEIGHT = 256`.  The dense `Uint8Array` is
modelled as a function from the flat index `x + y*16 + z*16*256`
(zero-initialised, so air); a `Uint8Array` store keeps the value modulo
256.  The renderable geometry is a pure function of the voxel grid (see
`faceEmitted`), so a chunk records the voxel snapshot its current
geometry was built from. -/

structure ChunkT where
  x : Int
  z : Int
  blocks : Nat → Nat
  isGenerated : Bool
  isBuilt : Bool
  meshBlocks : Option (Nat → Nat)

/-- `new Chunk(x, z, generator)`. -/
def newChunk (x z : Int) : ChunkT :=
  { x := x, z := z, blocks := fun _ => 0,
    isGenerated := false, isBuilt := false, meshBlocks := none }

/-- `Chunk.getBlock`: bounds-checked; out-of-range reads return air. -/
def chunkGetBlock (c : ChunkT) (x y z : Int) : Nat :=
  if x < 0 ∨ 16 ≤ x ∨ y < 0 ∨ 256 ≤ y ∨ z < 0 ∨ 16 ≤ z then BlockTypeIds.AIR
  else c.blocks (x.toNat + y.toNat * 16 + z.toNat * 16 * 256)

/-- `Chunk.setBlock`: bounds-checked; out-of-range writes are no-ops. -/
def chunkSetBlock (c : ChunkT) (x y z : Int) (t : Nat) : ChunkT :=
  if x < 0 ∨ 16 ≤ x ∨ y < 0 ∨ 256 ≤ y ∨ z < 0 ∨ 16 ≤ z then c
  else
    { c with blocks := fun i =>
        if i = x.toNat + y.toNat * 16 + z.toNat * 16 * 256 then t % 256
        else c.blocks i }

/-- `Chunk.shouldRenderFace(nx, ny, nz, currentBlock, isWater)`. -/
def shouldRenderFace (c : ChunkT) (nx ny nz : Int) (currentBlock : Nat)
    (isWater : Bool) : Bool :=
  let neighbor := chunkGetBlock c nx ny nz
  if neighbor = BlockTypeIds.AIR then true
  else if isVegetationBlock neighbor = true then true
  else if isWater = true then decide (neighbor ≠ BlockTypeIds.WATER)
  else if isBlockTransparent neighbor = true ∧ neighbor ≠ currentBlock then
    true
  else false

/-- The six face directions walked by `buildMesh`. -/
inductive FaceDir
  | top | bottom | front | back | right | left
  deriving DecidableEq

/-- Neighbour offset probed for each face direction. -/
def faceOffset : FaceDir → Int × Int × Int
  | .top => (0, 1, 0)
  | .bottom => (0, -1, 0)
  | .front => (0, 0, 1)
  | .back => (0, 0, -1)
  | .right => (1, 0, 0)
  | .left => (-1, 0, 0)

/-- Whether `buildMesh` emits a face quad for the voxel at `(x, y, z)` in
direction `d`: the voxel is in bounds, not air, not a cross-billboard
vegetation voxel, and `shouldRenderFace` approves the neighbour (with
`isWater = (block === WATER)` exactly as at the call sites). -/
def faceEmitted (c : ChunkT) (x y z : Nat) (d : FaceDir) : Bool :=
  let block := chunkGetBlock c (x : Int) (y : Int) (z : Int)
  if x < 16 ∧ y < 256 ∧ z < 16 ∧ block ≠ BlockTypeIds.AIR ∧
      isVegetationBlock block = false then
    let off := faceOffset d
    shouldRenderFace c ((x : Int) + off.1) ((y : Int) + off.2.1)
      ((z : Int) + off.2.2) block (block == BlockTypeIds.WATER)
  else false

/-- `Chunk.buildMesh`: no-op on an ungenerated chunk; otherwise derives
the geometry from the current voxel grid and sets `isBuilt`. -/
def chunkBuildMesh (c : ChunkT) : ChunkT :=
  if c.isGenerated = false then c
  else { c with meshBlocks := some c.blocks, isBuilt := true }

/-- `Chunk.rebuildMesh`: dispose current geometry, clear `isBuilt`,
rebuild. -/
def chunkRebuildMesh (c : ChunkT) : ChunkT :=
  chunkBuildMesh { c with meshBlocks := none, isBuilt := false }

/-- `Chunk.dispose`: release geometry only (`isGenerated`/`isBuilt` are
not touched). -/
def chunkDispose (c : ChunkT) : ChunkT :=
  { c with meshBlocks := none }

/-- The `Math.random()` draws of tree decoration, exposed as an explicit
choice structure so every outcome is quantified over:
`treeHeightRoll` is the value of `getTreeHeight()` (`4 + floor(rand*3)`)
and `leafSkip` the per-leaf `Math.random() > 0.5` corner test. -/
structure Rng where
  treeHeightRoll : Int → Int → Nat
  leafSkip : Int → Int → Int → Int → Int → Bool

/-- Inclusive integer range `[a..b]` (the JS `for (i = a; i <= b; i++)`
iteration space). -/
def intRange (a b : Int) : List Int :=
  (List.range (b + 1 - a).toNat).map (fun (i : Nat) => a + (i : Int))

/-- `Chunk.placeTree(lx, wz, surfaceY)`: trunk of `treeHeight` WOOD
blocks above the surface, then a three-layer leaf canopy with randomly
skipped corners. -/
def placeTree (rng : Rng) (c : ChunkT) (lx : Int) (wz : Int)
    (surfaceY : Int) : ChunkT :=
  if surfaceY < 35 then c
  else
    let treeHeight := rng.treeHeightRoll lx wz
    let localZ := ((wz % 16) + 16) % 16
    let c1 := (List.range treeHeight).foldl
      (fun (cc : ChunkT) i =>
        let ty := surfaceY + ((i : Int) + 1)
        if ty < 256 then chunkSetBlock cc lx ty localZ BlockTypeIds.WOOD
        else cc)
      c
    let leafStart := surfaceY + (treeHeight : Int) - 1
    (intRange 0 2).foldl
      (fun (cc : ChunkT) dy =>
        let radius : Int := if dy = 0 then 2 else if dy = 1 then 2 else 1
        (intRange (-radius) radius).foldl
          (fun (cc2 : ChunkT) dx =>
            (intRange (-radius) radius).foldl
              (fun (cc3 : ChunkT) dz =>
                let nlx := lx + dx
                let nlz := localZ + dz
                let ny := leafStart + dy
                if 0 ≤ nlx ∧ nlx < 16 ∧ 0 ≤ nlz ∧ nlz < 16 ∧ ny < 256 then
                  if dx = 0 ∧ dz = 0 ∧ dy < 2 then cc3
                  else if |dx| = radius ∧ |dz| = radius ∧
                      rng.leafSkip lx localZ dx dz dy = true then cc3
                  else chunkSetBlock cc3 nlx ny nlz BlockTypeIds.LEAVES
                else cc3)
              cc2)
          cc)
      c1

/-- `Chunk.placeVegetation(lx, lz, wx, wz)`: a single vegetation block one
above the surface, only when the surface block is grass. -/
def placeVegetation (o : GenOracle) (cfg : TerrainConfig) (c : ChunkT)
    (s : GenState) (lx lz wx wz : Int) : ChunkT × GenState :=
  let r1 := tgGetHeight o cfg s wx wz
  let surfaceY := r1.1
  let surfaceBlock := chunkGetBlock c lx surfaceY lz
  if surfaceBlock ≠ BlockTypeIds.GRASS then (c, r1.2)
  else
    let r2 := tgGetVegetationType o cfg r1.2 wx wz
    let vegY := surfaceY + 1
    if vegY < 256 then (chunkSetBlock c lx vegY lz r2.1, r2.2)
    else (c, r2.2)

/-- One turn of the inner `y` loop of `Chunk.generate`: classify the
voxel through the (stateful) generator and store it. -/
def fillStep (o : GenOracle) (cfg : TerrainConfig) (wx wz : Int)
    (lx lz : Nat) (a : ChunkT × GenState) (y : Nat) : ChunkT × GenState :=
  let r := tgGetBlockAt o cfg a.2 wx (y : Int) wz
  (chunkSetBlock a.1 (lx : Int) (y : Int) (lz : Int) r.1, r.2)

/-- The decoration tail of the per-column loop body of `Chunk.generate`:
place a tree, or else vegetation, when the respective density test
passes. -/
def decorateColumn (o : GenOracle) (cfg : TerrainConfig) (rng : Rng)
    (wx wz : Int) (lx lz : Nat) (filled : ChunkT × GenState) :
    ChunkT × GenState :=
  let rt := tgShouldPlaceTree o cfg filled.2 wx wz
  if rt.1 = true then
    let rh := tgGetHeight o cfg rt.2 wx wz
    (placeTree rng filled.1 (lx : Int) wz rh.1, rh.2)
  else
    let rv := tgShouldPlaceVegetation o cfg rt.2 wx wz
    if rv.1 = true then
      placeVegetation o cfg filled.1 rv.2 (lx : Int) (lz : Int) wx wz
    else (filled.1, rv.2)

/-- One iteration of the per-column loop body of `Chunk.generate`:
fill all 256 y-levels of the column from `TerrainGenerator.getBlockAt`,
then decorate. -/
def genColumn (o : GenOracle) (cfg : TerrainConfig) (rng : Rng)
    (acc : ChunkT × GenState) (lx lz : Nat) : ChunkT × GenState :=
  let wx := acc.1.x * 16 + (lx : Int)
  let wz := acc.1.z * 16 + (lz : Int)
  decorateColumn o cfg rng wx wz lx lz
    ((List.range 256).foldl (fillStep o cfg wx wz lx lz) acc)

/-- The `(lx, lz)` iteration order of `Chunk.generate`'s nested loops. -/
def chunkColumns : List (Nat × Nat) :=
  (List.range 16).flatMap (fun lx =>
    (List.range 16).map (fun lz => (lx, lz)))

/-- `Chunk.generate()`: a no-op once `isGenerated`; otherwise fills every
column and decorates, then marks the chunk generated.  The generator's
column memo is threaded through (and, notably, never cleared on this
path — clearing happens only in `generateChunkData`, which
`Chunk.generate` does not call). -/
def genFinish (r : ChunkT × GenState) : ChunkT × GenState :=
  ({ r.1 with isGenerated := true }, r.2)

def chunkGenerate (o : GenOracle) (cfg : TerrainConfig) (rng : Rng)
    (c : ChunkT) (s : GenState) : ChunkT × GenState :=
  if c.isGenerated = true then (c, s)
  else
    genFinish (chunkColumns.foldl
      (fun acc p => genColumn o cfg rng acc p.1 p.2) (c, s))

/-! ## World (`World.ts`)

The chunk map is keyed by the `createChunkKey` strings; coordinates are
restricted to integers (on integers, `Math.floor` is the identity and
`Math.floor(v / 16)` is exact floor division, division by 16 being exact
in binary floating point). -/

/-- `Map.set`: replace in place when the key exists (a JS `Map` keeps the
original insertion position), append otherwise. -/
def alSet {κ ν : Type} [BEq κ] (l : List (κ × ν)) (k : κ) (v : ν) :
    List (κ × ν) :=
  match l with
  | [] => [(k, v)]
  | e :: t => if e.1 == k then (k, v) :: t else e :: alSet t k v

structure WorldT where
  renderDistance : Int
  chunks : List (List Char × ChunkT)
  blockCache : LRUCache
  gen : GenState

/-- A world as constructed: no chunks, an empty 15000-entry cache, a
fresh generator. -/
def freshWorld (renderDistance : Int) : WorldT :=
  { renderDistance := renderDistance, chunks := [],
    blockCache := LRUCache.empty 15000, gen := emptyGenState }

/-- `World.getHeightAt`. -/
def worldGetHeightAt (o : GenOracle) (cfg : TerrainConfig) (w : WorldT)
    (x z : Int) : Int × WorldT :=
  let r := tgGetHeight o cfg w.gen x z
  (r.1, { w with gen := r.2 })

/-- `World.getBiome`. -/
def worldGetBiome (o : GenOracle) (cfg : TerrainConfig) (w : WorldT)
    (x z : Int) : String × WorldT :=
  let r := tgGetBiome o cfg w.gen x z
  (r.1, { w with gen := r.2 })

/-- `World.getBlockAt(worldX, worldY, worldZ)`: clamp y, consult the
recency cache, then the owning chunk when generated, else the terrain
generator; cache the result on every miss path. -/
def worldGetBlockAt (o : GenOracle) (cfg : TerrainConfig) (w : WorldT)
    (wx wy wz : Int) : Nat × WorldT :=
  if wy < 0 then (BlockTypeIds.BEDROCK, w)
  else if 256 ≤ wy then (BlockTypeIds.AIR, w)
  else
    let chunkX := wx.fdiv 16
    let chunkZ := wz.fdiv 16
    let chunkKey := chunkKeyChars chunkX chunkZ
    let cacheKey := cacheKeyChars chunkX chunkZ wx wy wz
    let rgot := LRUCache.get w.blockCache cacheKey
    match rgot.1 with
    | some v => (v, { w with blockCache := rgot.2 })
    | none =>
      let fb : Nat × WorldT :=
        let r := tgGetBlockAt o cfg w.gen wx wy wz
        (r.1, { w with
          gen := r.2
          blockCache := LRUCache.set w.blockCache cacheKey r.1 })
      match alLookup w.chunks chunkKey with
      | some c =>
        if c.isGenerated = true then
          let localX := wx - chunkX * 16
          let localZ := wz - chunkZ * 16
          let block := chunkGetBlock c localX wy localZ
          (block,
            { w with blockCache := LRUCache.set w.blockCache cacheKey block })
        else fb
      | none => fb

/-- `World.setBlock(worldX, worldY, worldZ, blockType)`: boolean failure
when y is out of range or the owning chunk is absent/ungenerated;
otherwise mutate the voxel, invalidate the one cache key, and rebuild the
chunk mesh synchronously. -/
def worldSetBlock (o : GenOracle) (cfg : TerrainConfig) (w : WorldT)
    (wx wy wz : Int) (blockType : Nat) : Bool × WorldT :=
  if wy < 0 ∨ 256 ≤ wy then (false, w)
  else
    let chunkX := wx.fdiv 16
    let chunkZ := wz.fdiv 16
    let chunkKey := chunkKeyChars chunkX chunkZ
    match alLookup w.chunks chunkKey with
    | none => (false, w)
    | some c =>
      if c.isGenerated = false then (false, w)
      else
        let localX := wx - chunkX * 16
        let localZ := wz - chunkZ * 16
        let c1 := chunkSetBlock c localX wy localZ blockType
        let cacheKey := cacheKeyChars chunkX chunkZ wx wy wz
        let cache1 := LRUCache.delete w.blockCache cacheKey
        let c2 := chunkRebuildMesh c1
        (true, { w with
          chunks := alSet w.chunks chunkKey c2
          blockCache := cache1 })

/-- A candidate chunk of `World.update`; `d2` is the squared Euclidean
distance in chunk units (the source stores `dist = sqrt(d2)` and tests
`dist <= renderDistance`, which for integers is `d2 <= renderDistance²`;
sorting by `dist` coincides with sorting by `d2`). -/
structure Candidate where
  x : Int
  z : Int
  d2 : Int
  deriving DecidableEq

/-- The candidate enumeration of `World.update`: all offsets in the
`[-rd, rd]²` square within Euclidean distance `rd` of the player chunk. -/
def worldCandidates (rd pcx pcz : Int) : List Candidate :=
  (intRange (-rd) rd).flatMap (fun dx =>
    (intRange (-rd) rd).filterMap (fun dz =>
      if dx * dx + dz * dz ≤ rd * rd then
        some ⟨pcx + dx, pcz + dz, dx * dx + dz * dz⟩
      else none))

/-- The per-candidate body of `World.update`'s load loop: create the
chunk if absent, then — under the shared per-call quota of 2 — generate
it, and build its mesh once generated.  State:
`(chunk map, generator state, operations spent)`. -/
def loadStep (o : GenOracle) (cfg : TerrainConfig) (rng : Rng)
    (acc : List (List Char × ChunkT) × GenState × Nat) (cand : Candidate) :
    List (List Char × ChunkT) × GenState × Nat :=
  let key := chunkKeyChars cand.x cand.z
  let r0 : ChunkT × List (List Char × ChunkT) :=
    match alLookup acc.1 key with
    | some c => (c, acc.1)
    | none =>
      let c := newChunk cand.x cand.z
      (c, acc.1 ++ [(key, c)])
  let r1 : ChunkT × GenState × Nat :=
    if r0.1.isGenerated = false ∧ acc.2.2 < 2 then
      let r := chunkGenerate o cfg rng r0.1 acc.2.1
      (r.1, r.2, acc.2.2 + 1)
    else (r0.1, acc.2.1, acc.2.2)
  let r2 : ChunkT × Nat :=
    if r1.1.isGenerated = true ∧ r1.1.isBuilt = false ∧ r1.2.2 < 2 then
      (chunkBuildMesh r1.1, r1.2.2 + 1)
    else (r1.1, r1.2.2)
  (alSet r0.2 key r2.1, r1.2.1, r2.2)

/-- `World.update(playerX, playerZ)`: enumerate candidates, sort by
ascending distance (V8's stable sort, modelled by insertion sort on the
squared distance), run the quota-limited load loop, then unload every
live chunk whose key is not a candidate key — removing it from the map
and evicting its prefix from the block cache.  (`dispose()` additionally
releases the dropped chunk's geometry, which has no effect on the
retained state.) -/
def worldUpdate (o : GenOracle) (cfg : TerrainConfig) (rng : Rng)
    (w : WorldT) (playerX playerZ : Int) : WorldT :=
  let playerChunkX := playerX.fdiv 16
  let playerChunkZ := playerZ.fdiv 16
  let chunksToLoad := worldCandidates w.renderDistance playerChunkX playerChunkZ
  let sorted := List.insertionSort (fun a b => a.d2 ≤ b.d2) chunksToLoad
  let loaded := sorted.foldl (loadStep o cfg rng) (w.chunks, w.gen, 0)
  let loadedKeys := sorted.map (fun cand => chunkKeyChars cand.x cand.z)
  let chunksToUnload := (loaded.1.map (·.1)).filter
    (fun k => !(loadedKeys.contains k))
  let finalChunks := chunksToUnload.foldl (fun m k => alErase m k) loaded.1
  let finalCache := chunksToUnload.foldl
    (fun cc k => LRUCache.deleteStartingWith cc (k ++ ['_'])) w.blockCache
  { w with
    chunks := finalChunks
    blockCache := finalCache
    gen := loaded.2.1 }

/-! ## Generic helper lemmas -/

theorem foldl_invariant {α β : Type} (P : β → Prop) (f : β → α → β)
    (l : List α) (b : β) (hb : P b) (hf : ∀ b a, a ∈ l → P b → P (f b a)) :
    P (l.foldl f b) := by
  induction l generalizing b with
  | nil => exact hb
  | cons a t ih =>
    exact ih (f b a) (hf b a (List.mem_cons_self _ _) hb)
      (fun b' a' ha' => hf b' a' (List.mem_cons_of_mem _ ha'))

section AssocList2

variable {κ ν : Type} [BEq κ] [LawfulBEq κ]

theorem alSet_lookup_self (l : List (κ × ν)) (k : κ) (v : ν) :
    alLookup (alSet l k v) k = some v := by
  induction l with
  | nil => simp [alSet, alLookup]
  | cons e t ih =>
    rw [alSet]
    by_cases h : (e.1 == k)
    · rw [if_pos h, alLookup_cons]
      simp
    · rw [if_neg h, alLookup_cons, if_neg h]
      exact ih

theorem alSet_lookup_ne (l : List (κ × ν)) {k k' : κ} (v : ν)
    (h : ¬(k = k')) : alLookup (alSet l k v) k' = alLookup l k' := by
  induction l with
  | nil =>
    rw [alSet, alLookup_cons]
    have : (k == k') = false := by
      rw [beq_eq_false_iff_ne]; exact h
    rw [this]
    simp
  | cons e t ih =>
    rw [alSet]
    by_cases he : (e.1 == k)
    · rw [if_pos he, alLookup_cons, alLookup_cons]
      have : (k == k') = false := by rw [beq_eq_false_iff_ne]; exact h
      rw [this]
      have : (e.1 == k') = false := by
        rw [beq_eq_false_iff_ne]
        intro e'
        exact h ((eq_of_beq he).symm.trans e')
      rw [this]
      simp
    · rw [if_neg he, alLookup_cons, alLookup_cons, ih]

theorem alLookup_tail_none (l : List (κ × ν)) (k : κ)
    (h : alLookup l k = none) : alLookup l.tail k = none := by
  cases l with
  | nil => rfl
  | cons e t =>
    rw [alLookup_cons] at h
    by_cases he : (e.1 == k)
    · rw [if_pos he] at h; cases h
    · rw [if_neg he] at h; exact h

theorem alSet_mem_keys (l : List (κ × ν)) (k k' : κ) (v : ν)
    (h : (alLookup l k').isSome = true) :
    (alLookup (alSet l k v) k').isSome = true := by
  by_cases hk : k = k'
  · subst hk; rw [alSet_lookup_self]; rfl
  · rw [alSet_lookup_ne _ _ hk]; exact h

end AssocList2

namespace LRUCache

theorem lookup_delete_self (c : LRUCache) (k : List Char) :
    (c.delete k).lookup k = none :=
  alLookup_erase_self _ _

theorem lookup_delete_ne (c : LRUCache) {k k' : List Char} (h : ¬(k = k')) :
    (c.delete k).lookup k' = c.lookup k' :=
  alLookup_erase_ne _ h

theorem lookup_set_self (c : LRUCache) (k : List Char) (v : Nat) :
    (c.set k v).lookup k = some v := by
  unfold set
  by_cases h1 : (c.lookup k).isSome
  · rw [if_pos h1]
    show alLookup (eraseEntry c.entries k ++ [(k, v)]) k = some v
    rw [alLookup_append, eraseEntry, alLookup_erase_self]
    show alLookup [(k, v)] k = some v
    exact alLookup_singleton _ _
  · rw [if_neg h1]
    have hn : alLookup c.entries k = none := by
      cases hc : alLookup c.entries k with
      | none => rfl
      | some v' => rw [lookup] at h1; rw [hc] at h1; simp at h1
    by_cases h2 : c.maxSize ≤ c.entries.length
    · rw [if_pos h2]
      show alLookup (c.entries.tail ++ [(k, v)]) k = some v
      rw [alLookup_append, alLookup_tail_none _ _ hn]
      exact alLookup_singleton _ _
    · rw [if_neg h2]
      show alLookup (c.entries ++ [(k, v)]) k = some v
      rw [alLookup_append, hn]
      exact alLookup_singleton _ _

theorem get_of_lookup_none (c : LRUCache) (k : List Char)
    (h : c.lookup k = none) : c.get k = (none, c) := by
  unfold get
  rw [h]

theorem get_of_lookup_some (c : LRUCache) (k : List Char) (v : Nat)
    (h : c.lookup k = some v) :
    c.get k = (some v,
      { c with entries := eraseEntry c.entries k ++ [(k, v)] }) := by
  unfold get
  rw [h]

theorem lookup_deleteStartingWith_of_not_match (c : LRUCache)
    (p k : List Char) (h : strStartsWith k p = false) :
    (c.deleteStartingWith p).lookup k = c.lookup k := by
  show alLookup (c.entries.filter _) k = alLookup c.entries k
  induction c.entries with
  | nil => rfl
  | cons e t ih =>
    rw [List.filter_cons]
    by_cases he : strStartsWith e.1 p = true
    · rw [if_neg (by simp [he])]
      rw [alLookup_cons]
      have : (e.1 == k) = false := by
        rw [beq_eq_false_iff_ne]
        intro hek
        rw [hek, h] at he
        cases he
      rw [this]
      simp only [Bool.false_eq_true, if_false]
      exact ih
    · rw [if_pos (by simp [Bool.eq_false_iff.mpr he])]
      rw [alLookup_cons, alLookup_cons]
      by_cases hek : (e.1 == k)
      · rw [if_pos hek, if_pos hek]
      · rw [if_neg hek, if_neg hek]
        exact ih

theorem lookup_deleteStartingWith_of_match (c : LRUCache)
    (p k : List Char) (h : strStartsWith k p = true) :
    (c.deleteStartingWith p).lookup k = none := by
  show alLookup (c.entries.filter _) k = none
  induction c.entries with
  | nil => rfl
  | cons e t ih =>
    rw [List.filter_cons]
    by_cases he : strStartsWith e.1 p = true
    · rw [if_neg (by simp [he])]
      exact ih
    · rw [if_pos (by simp [Bool.eq_false_iff.mpr he])]
      rw [alLookup_cons]
      have : (e.1 == k) = false := by
        rw [beq_eq_false_iff_ne]
        intro hek
        rw [← hek] at h
        rw [h] at he
        exact he rfl
      rw [this]
      simp only [Bool.false_eq_true, if_false]
      exact ih

theorem lookup_deleteStartingWith_none (c : LRUCache) (p k : List Char)
    (h : c.lookup k = none) : (c.deleteStartingWith p).lookup k = none := by
  by_cases hm : strStartsWith k p = true
  · exact lookup_deleteStartingWith_of_match c p k hm
  · rw [lookup_deleteStartingWith_of_not_match c p k
      (Bool.eq_false_iff.mpr hm)]
    exact h

end LRUCache

/-! ## Chunk voxel-array lemmas -/

theorem chunkSetBlock_isGenerated (c : ChunkT) (x y z : Int) (t : Nat) :
    (chunkSetBlock c x y z t).isGenerated = c.isGenerated := by
  unfold chunkSetBlock
  split <;> rfl

theorem chunkSetBlock_x (c : ChunkT) (x y z : Int) (t : Nat) :
    (chunkSetBlock c x y z t).x = c.x := by
  unfold chunkSetBlock
  split <;> rfl

theorem chunkSetBlock_z (c : ChunkT) (x y z : Int) (t : Nat) :
    (chunkSetBlock c x y z t).z = c.z := by
  unfold chunkSetBlock
  split <;> rfl

theorem chunkGetBlock_setBlock_self (c : ChunkT) {x y z : Int} (t : Nat)
    (hx : 0 ≤ x ∧ x < 16) (hy : 0 ≤ y ∧ y < 256) (hz : 0 ≤ z ∧ z < 16) :
    chunkGetBlock (chunkSetBlock c x y z t) x y z = t % 256 := by
  unfold chunkGetBlock chunkSetBlock
  rw [if_neg (by omega), if_neg (by omega)]
  simp

theorem chunkGetBlock_setBlock_other (c : ChunkT) {x y z x' y' z' : Int}
    (t : Nat) (hne : ¬(x' = x ∧ y' = y ∧ z' = z)) :
    chunkGetBlock (chunkSetBlock c x y z t) x' y' z' =
      chunkGetBlock c x' y' z' := by
  unfold chunkGetBlock chunkSetBlock
  by_cases hw : x < 0 ∨ 16 ≤ x ∨ y < 0 ∨ 256 ≤ y ∨ z < 0 ∨ 16 ≤ z
  · rw [if_pos hw]
  · rw [if_neg hw]
    by_cases hr : x' < 0 ∨ 16 ≤ x' ∨ y' < 0 ∨ 256 ≤ y' ∨ z' < 0 ∨ 16 ≤ z'
    · rw [if_pos hr, if_pos hr]
    · rw [if_neg hr, if_neg hr]
      dsimp only
      rw [if_neg (by omega)]

theorem chunkBuildMesh_blocks (c : ChunkT) :
    (chunkBuildMesh c).blocks = c.blocks := by
  unfold chunkBuildMesh
  split <;> rfl

theorem chunkRebuildMesh_of_generated {c : ChunkT}
    (h : c.isGenerated = true) :
    chunkRebuildMesh c =
      { c with meshBlocks := some c.blocks, isBuilt := true } := by
  unfold chunkRebuildMesh chunkBuildMesh
  rw [if_neg (by simp [h])]

theorem localCoord_bounds (x : Int) :
    0 ≤ x - x.fdiv 16 * 16 ∧ x - x.fdiv 16 * 16 < 16 := by
  rw [Int.fdiv_eq_ediv _ (by norm_num)]
  have h1 := Int.emod_nonneg x (by norm_num : (16 : Int) ≠ 0)
  have h2 := Int.emod_lt_of_pos x (by norm_num : (0 : Int) < 16)
  rw [Int.emod_def] at h1 h2
  omega

/-! ## C10: exactness of per-chunk cache eviction -/

/-- **C10**: `clearChunkCache` (prefix deletion with `chunkKey + "_"`)
removes a cache entry precisely when that entry's voxel belongs to the
unloaded chunk: the cache key of voxel `(bx,by,bz)` in chunk `(c,d)`
starts with `chunkKey(a,b) + "_"` iff `(a,b) = (c,d)` — in particular the
prefix of chunk `"1,1"` never matches keys of chunk `"1,11"` — and the
surviving entries are untouched. -/
theorem claim10_prefix_eviction_exact (cc : LRUCache)
    (a b c d bx by_ bz : Int) :
    (strStartsWith (cacheKeyChars c d bx by_ bz)
        (chunkKeyChars a b ++ ['_']) = true ↔ a = c ∧ b = d) ∧
    ((LRUCache.deleteStartingWith cc (chunkKeyChars a b ++ ['_'])).lookup
        (cacheKeyChars c d bx by_ bz) =
      if a = c ∧ b = d then none
      else cc.lookup (cacheKeyChars c d bx by_ bz)) := by
  refine ⟨cacheKey_startsWith_iff a b c d bx by_ bz, ?_⟩
  by_cases h : a = c ∧ b = d
  · rw [if_pos h]
    exact LRUCache.lookup_deleteStartingWith_of_match _ _ _
      ((cacheKey_startsWith_iff a b c d bx by_ bz).mpr h)
  · rw [if_neg h]
    refine LRUCache.lookup_deleteStartingWith_of_not_match _ _ _ ?_
    rw [Bool.eq_false_iff]
    intro hm
    exact h ((cacheKey_startsWith_iff a b c d bx by_ bz).mp hm)

/-! ## C7: the face-visibility rule -/

/-- **C7**: for a non-air, non-vegetation voxel holding block `B`
(`isWater` is `B === WATER` exactly as at the `buildMesh` call sites),
`shouldRenderFace` emits a face iff the neighbour is air, or vegetation,
or (for non-water `B`) transparent and of a different type, or (for
water `B`) simply not water; consequently a face is emitted against an
air neighbour, and never between two adjacent voxels of the same opaque
type. -/
theorem claim7_face_visibility (c : ChunkT) (nx ny nz : Int) (B : Nat)
    (hB : B ≠ BlockTypeIds.AIR) (hv : isVegetationBlock B = false) :
    (shouldRenderFace c nx ny nz B (B == BlockTypeIds.WATER) = true ↔
      chunkGetBlock c nx ny nz = BlockTypeIds.AIR ∨
      isVegetationBlock (chunkGetBlock c nx ny nz) = true ∨
      (B ≠ BlockTypeIds.WATER ∧
        isBlockTransparent (chunkGetBlock c nx ny nz) = true ∧
        chunkGetBlock c nx ny nz ≠ B) ∨
      (B = BlockTypeIds.WATER ∧
        chunkGetBlock c nx ny nz ≠ BlockTypeIds.WATER)) ∧
    (chunkGetBlock c nx ny nz = BlockTypeIds.AIR →
      shouldRenderFace c nx ny nz B (B == BlockTypeIds.WATER) = true) ∧
    (chunkGetBlock c nx ny nz = B → isBlockTransparent B = false →
      shouldRenderFace c nx ny nz B (B == BlockTypeIds.WATER) = false) := by
  refine ⟨?_, ?_, ?_⟩
  · by_cases h3 : B = BlockTypeIds.WATER <;>
      by_cases h1 : chunkGetBlock c nx ny nz = BlockTypeIds.AIR <;>
      by_cases h2 : isVegetationBlock (chunkGetBlock c nx ny nz) = true <;>
      by_cases h4 : chunkGetBlock c nx ny nz = BlockTypeIds.WATER <;>
      by_cases h5 : isBlockTransparent (chunkGetBlock c nx ny nz) = true <;>
      by_cases h6 : chunkGetBlock c nx ny nz = B <;>
      simp_all [shouldRenderFace]
  · intro h
    unfold shouldRenderFace
    rw [if_pos h]
  · intro h6 h5
    unfold shouldRenderFace
    rw [if_neg (by rw [h6]; exact hB)]
    rw [if_neg (by rw [h6, hv]; simp)]
    by_cases h3 : B = BlockTypeIds.WATER
    · rw [if_pos (by simp [h3])]
      simp [h6, h3]
    · rw [if_neg (by simp [h3])]
      rw [if_neg (by rw [h6]; simp [h5])]

/-! ## Concrete oracles for witnesses and counterexamples

`List.range` evaluation lemmas used when computing noise folds. -/

theorem rangeTwo : List.range 2 = [0, 1] := rfl
theorem rangeThree : List.range 3 = [0, 1, 2] := rfl
theorem rangeFour : List.range 4 = [0, 1, 2, 3] := rfl
theorem rangeSix : List.range 6 = [0, 1, 2, 3, 4, 5] := rfl

/-- The all-zero noise oracle (a legitimate valuation of the abstracted
float primitives). -/
def zeroOracle : GenOracle :=
  { noise2D := fun _ _ => 0, noise3D := fun _ _ _ => 0,
    cave3D := fun _ _ _ => 0, biome2D := fun _ _ => 0,
    erosion2D := fun _ _ => 0, hashTree := fun _ _ => 0,
    hashVeg := fun _ _ => 0, hashVegKind := fun _ _ => 0 }

/-! ## `World.setBlock` structure lemmas -/

theorem worldSetBlock_yfail (o : GenOracle) (cfg : TerrainConfig)
    (w : WorldT) (x y z : Int) (T : Nat) (hy : y < 0 ∨ 256 ≤ y) :
    worldSetBlock o cfg w x y z T = (false, w) := by
  unfold worldSetBlock
  rw [if_pos hy]

theorem worldSetBlock_nochunk (o : GenOracle) (cfg : TerrainConfig)
    (w : WorldT) (x y z : Int) (T : Nat) (hy : ¬(y < 0 ∨ 256 ≤ y))
    (hc : alLookup w.chunks (chunkKeyChars (x.fdiv 16) (z.fdiv 16)) = none) :
    worldSetBlock o cfg w x y z T = (false, w) := by
  unfold worldSetBlock
  rw [if_neg hy]
  dsimp only
  rw [hc]

theorem worldSetBlock_ungenerated (o : GenOracle) (cfg : TerrainConfig)
    (w : WorldT) (x y z : Int) (T : Nat) (c : ChunkT)
    (hy : ¬(y < 0 ∨ 256 ≤ y))
    (hc : alLookup w.chunks (chunkKeyChars (x.fdiv 16) (z.fdiv 16)) = some c)
    (hg : c.isGenerated = false) :
    worldSetBlock o cfg w x y z T = (false, w) := by
  unfold worldSetBlock
  rw [if_neg hy]
  dsimp only
  rw [hc]
  dsimp only
  rw [if_pos hg]

theorem worldSetBlock_success (o : GenOracle) (cfg : TerrainConfig)
    (w : WorldT) (x y z : Int) (T : Nat) (c : ChunkT)
    (hy : ¬(y < 0 ∨ 256 ≤ y))
    (hc : alLookup w.chunks (chunkKeyChars (x.fdiv 16) (z.fdiv 16)) = some c)
    (hg : c.isGenerated = true) :
    worldSetBlock o cfg w x y z T =
      (true, { w with
        chunks := alSet w.chunks (chunkKeyChars (x.fdiv 16) (z.fdiv 16))
          (chunkRebuildMesh (chunkSetBlock c (x - x.fdiv 16 * 16) y
            (z - z.fdiv 16 * 16) T))
        blockCache := LRUCache.delete w.blockCache
          (cacheKeyChars (x.fdiv 16) (z.fdiv 16) x y z) }) := by
  unfold worldSetBlock
  rw [if_neg hy]
  dsimp only
  rw [hc]
  dsimp only
  rw [if_neg (by rw [hg]; simp)]

/-! ## C2: the round-trip edit property -/

/-- **C2**: when the owning chunk exists and is generated and
`0 ≤ y < 256`, `setBlock(x,y,z,T)` returns `true`; an immediately
following `getBlockAt(x,y,z)` returns `T`; and the block cache holds no
entry at that coordinate in between (the pre-edit value was
invalidated). -/
theorem claim2_round_trip_edit (o : GenOracle) (cfg : TerrainConfig)
    (w : WorldT) (x y z : Int) (T : Nat) (c : ChunkT)
    (hy0 : 0 ≤ y) (hy1 : y < 256) (hT : T < 256)
    (hc : alLookup w.chunks (chunkKeyChars (x.fdiv 16) (z.fdiv 16)) = some c)
    (hg : c.isGenerated = true) :
    (worldSetBlock o cfg w x y z T).1 = true ∧
    (worldGetBlockAt o cfg (worldSetBlock o cfg w x y z T).2 x y z).1 = T ∧
    ((worldSetBlock o cfg w x y z T).2).blockCache.lookup
      (cacheKeyChars (x.fdiv 16) (z.fdiv 16) x y z) = none := by
  have hy : ¬(y < 0 ∨ 256 ≤ y) := by omega
  rw [worldSetBlock_success o cfg w x y z T c hy hc hg]
  refine ⟨rfl, ?_, LRUCache.lookup_delete_self _ _⟩
  unfold worldGetBlockAt
  rw [if_neg (by omega), if_neg (by omega)]
  dsimp only
  have hmiss : (LRUCache.delete w.blockCache
      (cacheKeyChars (x.fdiv 16) (z.fdiv 16) x y z)).lookup
      (cacheKeyChars (x.fdiv 16) (z.fdiv 16) x y z) = none :=
    LRUCache.lookup_delete_self _ _
  rw [LRUCache.get_of_lookup_none _ _ hmiss]
  dsimp only
  rw [alSet_lookup_self]
  dsimp only
  have hc1g : (chunkSetBlock c (x - x.fdiv 16 * 16) y
      (z - z.fdiv 16 * 16) T).isGenerated = true := by
    rw [chunkSetBlock_isGenerated]; exact hg
  rw [chunkRebuildMesh_of_generated hc1g]
  dsimp only
  rw [if_pos hc1g]
  dsimp only
  show chunkGetBlock _ (x - x.fdiv 16 * 16) y (z - z.fdiv 16 * 16) = T
  have hb := chunkGetBlock_setBlock_self c (x := x - x.fdiv 16 * 16)
    (y := y) (z := z - z.fdiv 16 * 16) T
    (localCoord_bounds x) ⟨hy0, hy1⟩ (localCoord_bounds z)
  calc chunkGetBlock { chunkSetBlock c (x - x.fdiv 16 * 16) y
        (z - z.fdiv 16 * 16) T with
          meshBlocks := some (chunkSetBlock c (x - x.fdiv 16 * 16) y
            (z - z.fdiv 16 * 16) T).blocks, isBuilt := true }
        (x - x.fdiv 16 * 16) y (z - z.fdiv 16 * 16)
      = chunkGetBlock (chunkSetBlock c (x - x.fdiv 16 * 16) y
          (z - z.fdiv 16 * 16) T) (x - x.fdiv 16 * 16) y
          (z - z.fdiv 16 * 16) := rfl
    _ = T % 256 := hb
    _ = T := Nat.mod_eq_of_lt hT

/-- A generated, built chunk used by several witnesses (all-stone voxel
grid). -/
def stoneChunk : ChunkT :=
  { x := 0, z := 0, blocks := fun _ => 3, isGenerated := true,
    isBuilt := true, meshBlocks := some fun _ => 3 }

/-- A small world holding the generated chunk `(0,0)`. -/
def worldW : WorldT :=
  { renderDistance := 0, chunks := [(chunkKeyChars 0 0, stoneChunk)],
    blockCache := LRUCache.empty 15000, gen := emptyGenState }

/-- Witness for C2 at the concrete edit `setBlock(1, 5, 2, 7)`. -/
theorem claim2_round_trip_edit_witness :
    (worldSetBlock zeroOracle DEFAULT_TERRAIN_CONFIG worldW 1 5 2 7).1 =
      true ∧
    (worldGetBlockAt zeroOracle DEFAULT_TERRAIN_CONFIG
      (worldSetBlock zeroOracle DEFAULT_TERRAIN_CONFIG worldW 1 5 2 7).2
      1 5 2).1 = 7 ∧
    ((worldSetBlock zeroOracle DEFAULT_TERRAIN_CONFIG worldW 1 5 2 7).2
      ).blockCache.lookup
      (cacheKeyChars ((1 : Int).fdiv 16) ((2 : Int).fdiv 16) 1 5 2) = none :=
  claim2_round_trip_edit zeroOracle DEFAULT_TERRAIN_CONFIG worldW 1 5 2 7
    stoneChunk (by norm_num) (by norm_num) (by norm_num) (by rfl) rfl

/-! ## C8: write failure is a clean no-op -/

/-- **C8**: `World.setBlock` returns `false` and leaves the entire world
state (chunk map, every voxel array, block cache, generator) untouched
whenever `y` is out of `[0, 256)` or the owning chunk is absent or
ungenerated; on success it returns `true`, deletes exactly the one cache
key, leaves the generator state alone, keeps every other map entry, and
replaces the owning chunk by one whose voxel grid differs exactly at the
addressed voxel and whose mesh has been synchronously rebuilt from the
mutated grid (`isBuilt` true, geometry snapshot equal to the new grid). -/
theorem claim8_write_failure_clean (o : GenOracle) (cfg : TerrainConfig)
    (w : WorldT) (x y z : Int) (T : Nat) :
    ((y < 0 ∨ 256 ≤ y) → worldSetBlock o cfg w x y z T = (false, w)) ∧
    (¬(y < 0 ∨ 256 ≤ y) →
      alLookup w.chunks (chunkKeyChars (x.fdiv 16) (z.fdiv 16)) = none →
      worldSetBlock o cfg w x y z T = (false, w)) ∧
    (∀ c, ¬(y < 0 ∨ 256 ≤ y) →
      alLookup w.chunks (chunkKeyChars (x.fdiv 16) (z.fdiv 16)) = some c →
      c.isGenerated = false →
      worldSetBlock o cfg w x y z T = (false, w)) ∧
    (∀ c, ¬(y < 0 ∨ 256 ≤ y) →
      alLookup w.chunks (chunkKeyChars (x.fdiv 16) (z.fdiv 16)) = some c →
      c.isGenerated = true →
      (worldSetBlock o cfg w x y z T).1 = true ∧
      (worldSetBlock o cfg w x y z T).2.blockCache =
        LRUCache.delete w.blockCache
          (cacheKeyChars (x.fdiv 16) (z.fdiv 16) x y z) ∧
      (worldSetBlock o cfg w x y z T).2.gen = w.gen ∧
      (∀ k', ¬(chunkKeyChars (x.fdiv 16) (z.fdiv 16) = k') →
        alLookup (worldSetBlock o cfg w x y z T).2.chunks k' =
          alLookup w.chunks k') ∧
      ∃ c2, alLookup (worldSetBlock o cfg w x y z T).2.chunks
          (chunkKeyChars (x.fdiv 16) (z.fdiv 16)) = some c2 ∧
        c2.isBuilt = true ∧
        c2.meshBlocks = some c2.blocks ∧
        chunkGetBlock c2 (x - x.fdiv 16 * 16) y (z - z.fdiv 16 * 16) =
          T % 256 ∧
        (∀ x' y' z', ¬(x' = x - x.fdiv 16 * 16 ∧ y' = y ∧
            z' = z - z.fdiv 16 * 16) →
          chunkGetBlock c2 x' y' z' = chunkGetBlock c x' y' z')) := by
  refine ⟨fun hy => worldSetBlock_yfail o cfg w x y z T hy,
    fun hy hc => worldSetBlock_nochunk o cfg w x y z T hy hc,
    fun c hy hc hg => worldSetBlock_ungenerated o cfg w x y z T c hy hc hg,
    fun c hy hc hg => ?_⟩
  rw [worldSetBlock_success o cfg w x y z T c hy hc hg]
  have hc1g : (chunkSetBlock c (x - x.fdiv 16 * 16) y
      (z - z.fdiv 16 * 16) T).isGenerated = true := by
    rw [chunkSetBlock_isGenerated]; exact hg
  refine ⟨rfl, rfl, rfl, fun k' hk => alSet_lookup_ne _ _ hk, ?_⟩
  refine ⟨chunkRebuildMesh (chunkSetBlock c (x - x.fdiv 16 * 16) y
    (z - z.fdiv 16 * 16) T), alSet_lookup_self _ _ _, ?_, ?_, ?_, ?_⟩
  · rw [chunkRebuildMesh_of_generated hc1g]
  · rw [chunkRebuildMesh_of_generated hc1g]
  · rw [chunkRebuildMesh_of_generated hc1g]
    show chunkGetBlock (chunkSetBlock c (x - x.fdiv 16 * 16) y
      (z - z.fdiv 16 * 16) T) (x - x.fdiv 16 * 16) y
      (z - z.fdiv 16 * 16) = T % 256
    exact chunkGetBlock_setBlock_self c T (localCoord_bounds x)
      ⟨by omega, by omega⟩ (localCoord_bounds z)
  · intro x' y' z' hne
    rw [chunkRebuildMesh_of_generated hc1g]
    show chunkGetBlock (chunkSetBlock c (x - x.fdiv 16 * 16) y
      (z - z.fdiv 16 * 16) T) x' y' z' = chunkGetBlock c x' y' z'
    exact chunkGetBlock_setBlock_other c T hne

/-- Witness for C8: a y-range failure, an absent-chunk failure, and a
successful write, all on the concrete world `worldW`. -/
theorem claim8_write_failure_clean_witness :
    worldSetBlock zeroOracle DEFAULT_TERRAIN_CONFIG worldW 0 300 0 3 =
      (false, worldW) ∧
    worldSetBlock zeroOracle DEFAULT_TERRAIN_CONFIG worldW 40 5 0 3 =
      (false, worldW) ∧
    (worldSetBlock zeroOracle DEFAULT_TERRAIN_CONFIG worldW 1 5 2 7).1 =
      true :=
  ⟨(claim8_write_failure_clean zeroOracle DEFAULT_TERRAIN_CONFIG worldW
      0 300 0 3).1 (by norm_num),
   (claim8_write_failure_clean zeroOracle DEFAULT_TERRAIN_CONFIG worldW
      40 5 0 3).2.1 (by norm_num) (by rfl),
   ((claim8_write_failure_clean zeroOracle DEFAULT_TERRAIN_CONFIG worldW
      1 5 2 7).2.2.2 stoneChunk (by norm_num) (by rfl) rfl).1⟩

/-! ## C6: determinism of voxel classification -/

/-- **C6**: `TerrainGenerator.getBlockAt` is a pure function of the
oracle (i.e. the seed-derived noise), the configuration and the
coordinates: any two generator states whose memos are valid — in
particular two freshly constructed instances, or one instance after any
sequence of earlier queries — return the same identifier, namely the
memo-free classification, and validity is preserved. -/
theorem claim6_determinism (o : GenOracle) (cfg : TerrainConfig)
    (s₁ s₂ : GenState) (x y z : Int)
    (h₁ : ValidGen o cfg s₁) (h₂ : ValidGen o cfg s₂) :
    (tgGetBlockAt o cfg s₁ x y z).1 = (tgGetBlockAt o cfg s₂ x y z).1 ∧
    (tgGetBlockAt o cfg s₁ x y z).1 =
      determineBlock o cfg x y z (computeColumnInfo o cfg x z) ∧
    ValidGen o cfg (tgGetBlockAt o cfg s₁ x y z).2 := by
  have e₁ : (tgGetBlockAt o cfg s₁ x y z).1 =
      determineBlock o cfg x y z (computeColumnInfo o cfg x z) := by
    unfold tgGetBlockAt
    dsimp only
    rw [calcColumnInfo_fst h₁]
  have e₂ : (tgGetBlockAt o cfg s₂ x y z).1 =
      determineBlock o cfg x y z (computeColumnInfo o cfg x z) := by
    unfold tgGetBlockAt
    dsimp only
    rw [calcColumnInfo_fst h₂]
  exact ⟨e₁.trans e₂.symm, e₁, calcColumnInfo_valid h₁ x z⟩

/-- A generator state with one precomputed (valid) memo entry. -/
def primedGenState : GenState :=
  ⟨[((0, 0), computeColumnInfo zeroOracle DEFAULT_TERRAIN_CONFIG 0 0)]⟩

theorem primedGenState_valid :
    ValidGen zeroOracle DEFAULT_TERRAIN_CONFIG primedGenState := by
  intro x z info h
  simp only [primedGenState, GenState.lookupCol] at h
  by_cases hk : ((0, 0) : Int × Int) = (x, z)
  · injection hk with hk1 hk2
    subst hk1; subst hk2
    rw [alLookup_singleton] at h
    injection h with h
    exact h.symm
  · rw [alLookup_singleton_ne _ hk] at h
    cases h

/-- Witness for C6: a fresh instance versus one that has already memoised
column `(0, 0)` agree at `(0, 64, 0)`. -/
theorem claim6_determinism_witness :
    (tgGetBlockAt zeroOracle DEFAULT_TERRAIN_CONFIG emptyGenState
        0 64 0).1 =
      (tgGetBlockAt zeroOracle DEFAULT_TERRAIN_CONFIG primedGenState
        0 64 0).1 ∧
    (tgGetBlockAt zeroOracle DEFAULT_TERRAIN_CONFIG emptyGenState
        0 64 0).1 =
      determineBlock zeroOracle DEFAULT_TERRAIN_CONFIG 0 64 0
        (computeColumnInfo zeroOracle DEFAULT_TERRAIN_CONFIG 0 0) ∧
    ValidGen zeroOracle DEFAULT_TERRAIN_CONFIG
      (tgGetBlockAt zeroOracle DEFAULT_TERRAIN_CONFIG emptyGenState
        0 64 0).2 :=
  claim6_determinism zeroOracle DEFAULT_TERRAIN_CONFIG emptyGenState
    primedGenState 0 64 0
    (validGen_empty zeroOracle DEFAULT_TERRAIN_CONFIG) primedGenState_valid

/-! ## C9: biome/height coupling -/

theorem abs_fbm_le_one (n2 : ℚ → ℚ → ℚ) (hb : ∀ a b, |n2 a b| ≤ 1)
    (x y : ℚ) (octaves : Nat) (lacunarity : ℚ) {persistence : ℚ}
    (hp : 0 < persistence) :
    |fbm n2 x y octaves lacunarity persistence| ≤ 1 := by
  unfold fbm
  dsimp only
  have h := foldl_invariant
    (fun (st : ℚ × ℚ × ℚ × ℚ) =>
      |st.1| ≤ st.2.2.2 ∧ 0 < st.2.1 ∧ 0 ≤ st.2.2.2)
    (fun (acc : ℚ × ℚ × ℚ × ℚ) (_ : ℕ) =>
      (acc.1 + n2 (x * acc.2.2.1) (y * acc.2.2.1) * acc.2.1,
        acc.2.1 * persistence, acc.2.2.1 * lacunarity, acc.2.2.2 + acc.2.1))
    (List.range octaves) (0, 1, 1, 0)
    ⟨by norm_num, by norm_num, le_refl 0⟩
    (fun st a _ hst => by
      obtain ⟨h1, h2, h3⟩ := hst
      refine ⟨?_, mul_pos h2 hp, by positivity⟩
      have hn := hb (x * st.2.2.1) (y * st.2.2.1)
      calc |st.1 + n2 (x * st.2.2.1) (y * st.2.2.1) * st.2.1|
          ≤ |st.1| + |n2 (x * st.2.2.1) (y * st.2.2.1) * st.2.1| :=
            abs_add _ _
        _ = |st.1| + |n2 (x * st.2.2.1) (y * st.2.2.1)| * st.2.1 := by
            rw [abs_mul, abs_of_pos h2]
        _ ≤ st.2.2.2 + 1 * st.2.1 := by
            refine add_le_add h1 (mul_le_mul_of_nonneg_right hn h2.le)
        _ = st.2.2.2 + st.2.1 := by ring)
  obtain ⟨h1, _, h3⟩ := h
  rcases eq_or_lt_of_le h3 with hz | hpos
  · rw [← hz] at h1
    have hv := abs_nonpos_iff.mp h1
    rw [hv, ← hz]
    simp
  · rw [abs_div, abs_of_pos hpos]
    exact div_le_one_of_le h1 hpos.le

theorem computeColumnInfo_terrainHeight (o : GenOracle)
    (cfg : TerrainConfig) (x z : Int) :
    (computeColumnInfo o cfg x z).terrainHeight =
      ⌊columnHeightQ o cfg x z⌋ := rfl

theorem computeColumnInfo_biome_eq (o : GenOracle) (cfg : TerrainConfig)
    (x z : Int) :
    (computeColumnInfo o cfg x z).biome =
      determineBiome
        (getTemperature o x z -
          max 0 ((columnHeightQ o cfg x z - 100) / 100) * 0.5)
        (getHumidity o x z) (columnHeightQ o cfg x z)
        (splineBands cfg (getContinentalness o x z) (getErosion o x z)
          (getPeaksAndValleys o x z)).2.2.1
        (splineBands cfg (getContinentalness o x z) (getErosion o x z)
          (getPeaksAndValleys o x z)).2.2.2.1 := rfl

/-- In the three ocean/beach continentalness bands the clamped height
cannot exceed 140 (given bounded detail noise and a water level of at
most 135). -/
theorem columnHeightQ_ocean_beach_bound (o : GenOracle)
    (cfg : TerrainConfig) (x z : Int)
    (hdet : |getFBM2D o x z 4 0.5 2 150| ≤ 1)
    (h3 : getContinentalness o x z < 0) (hw : cfg.waterLevel ≤ 135) :
    columnHeightQ o cfg x z ≤ 140 := by
  have hd := abs_le.mp hdet
  have hwq : (cfg.waterLevel : ℚ) ≤ 135 := by exact_mod_cast hw
  unfold columnHeightQ
  by_cases h1 : getContinentalness o x z < -0.4
  · rw [splineBands, if_pos h1]
    dsimp only
    rw [if_neg (by simp)]
    refine max_le (by norm_num) (le_trans (min_le_right _ _) ?_)
    nlinarith [hd.2]
  · rw [splineBands, if_neg h1]
    by_cases h2 : getContinentalness o x z < -0.2
    · rw [if_pos h2]
      dsimp only
      rw [if_neg (by simp)]
      refine max_le (by norm_num) (le_trans (min_le_right _ _) ?_)
      nlinarith [hd.2]
    · rw [if_neg h2, if_pos h3]
      dsimp only
      rw [if_neg (by simp)]
      refine max_le (by norm_num) (le_trans (min_le_right _ _) ?_)
      nlinarith [hd.2]

/-- Core of C9 at the pure column level. -/
theorem computeColumnInfo_mountain (o : GenOracle) (cfg : TerrainConfig)
    (x z : Int) (hb : ∀ a b, |o.noise2D a b| ≤ 1)
    (hw : cfg.waterLevel ≤ 135)
    (hh : (computeColumnInfo o cfg x z).terrainHeight > 140) :
    (computeColumnInfo o cfg x z).biome.name = "mountain_peaks" := by
  have hdet : |getFBM2D o x z 4 0.5 2 150| ≤ 1 :=
    abs_fbm_le_one _ hb _ _ _ _ (by norm_num)
  have hq : (140 : ℚ) < columnHeightQ o cfg x z := by
    rw [computeColumnInfo_terrainHeight] at hh
    have h141 : (141 : Int) ≤ ⌊columnHeightQ o cfg x z⌋ := hh
    have := Int.le_floor.mp h141
    calc (140 : ℚ) < 141 := by norm_num
      _ ≤ _ := by exact_mod_cast this
  have h3 : ¬(getContinentalness o x z < 0) := by
    intro h3
    exact absurd (columnHeightQ_ocean_beach_bound o cfg x z hdet h3 hw)
      (by linarith)
  rw [computeColumnInfo_biome_eq]
  have hband : (splineBands cfg (getContinentalness o x z)
        (getErosion o x z) (getPeaksAndValleys o x z)).2.2.1 = false ∧
      (splineBands cfg (getContinentalness o x z) (getErosion o x z)
        (getPeaksAndValleys o x z)).2.2.2.1 = false := by
    unfold splineBands
    rw [if_neg (by intro h; exact h3 (by linarith)),
      if_neg (by intro h; exact h3 (by linarith)), if_neg h3]
    by_cases h4 : getContinentalness o x z < 0.3
    · rw [if_pos h4]; exact ⟨rfl, rfl⟩
    · rw [if_neg h4]
      by_cases h5 : getContinentalness o x z < 0.6
      · rw [if_pos h5]; exact ⟨rfl, rfl⟩
      · rw [if_neg h5]
        by_cases h6 : getContinentalness o x z < 0.8
        · rw [if_pos h6]; exact ⟨rfl, rfl⟩
        · rw [if_neg h6]; exact ⟨rfl, rfl⟩
  rw [hband.1, hband.2]
  unfold determineBiome
  rw [if_neg (by simp), if_neg (by simp), if_pos hq]

/-- **C9**: whenever `getHeight(x,z) > 140`, `getBiome(x,z)` is the
mountain-tier biome `"mountain_peaks"` — the ocean and beach bands cannot
produce a height above 140 (their bases are 25, 45 and `waterLevel - 1`
with multipliers 8, 12 and 6, and the detail noise is a normalised
fractal sum bounded by 1), so the altitude branch of the biome table
applies. -/
theorem claim9_biome_height_coupling (o : GenOracle) (cfg : TerrainConfig)
    (s : GenState) (x z : Int)
    (hb : ∀ a b, |o.noise2D a b| ≤ 1) (hw : cfg.waterLevel ≤ 135)
    (hv : ValidGen o cfg s)
    (hh : (tgGetHeight o cfg s x z).1 > 140) :
    (tgGetBiome o cfg s x z).1 = "mountain_peaks" := by
  have e1 : (tgGetHeight o cfg s x z).1 =
      (computeColumnInfo o cfg x z).terrainHeight := by
    unfold tgGetHeight
    dsimp only
    rw [calcColumnInfo_fst hv]
  have e2 : (tgGetBiome o cfg s x z).1 =
      (computeColumnInfo o cfg x z).biome.name := by
    unfold tgGetBiome
    dsimp only
    rw [calcColumnInfo_fst hv]
  rw [e2]
  exact computeColumnInfo_mountain o cfg x z hb hw (e1 ▸ hh)

/-- An oracle valuation producing a mountain column: all 2-D noise at the
maximum value 1 (continentalness band ≥ 0.8), ridge noise 1. -/
def mountainOracle : GenOracle :=
  { noise2D := fun _ _ => 1, noise3D := fun _ _ _ => 0,
    cave3D := fun _ _ _ => 0, biome2D := fun _ _ => 0,
    erosion2D := fun _ _ => 0, hashTree := fun _ _ => 0,
    hashVeg := fun _ _ => 0, hashVegKind := fun _ _ => 0 }

theorem mountainOracle_height :
    (tgGetHeight mountainOracle DEFAULT_TERRAIN_CONFIG emptyGenState
      0 0).1 = 246 := by
  norm_num [tgGetHeight, calculateColumnInfo, GenState.lookupCol,
    emptyGenState, alLookup, computeColumnInfo, columnHeightQ, splineBands,
    getContinentalness, getErosion, getPeaksAndValleys, getWeirdness,
    getFBM2D, getRidgeNoise2D, fbm, rangeTwo, rangeThree, rangeFour,
    rangeSix, mountainOracle, DEFAULT_TERRAIN_CONFIG]

/-- Witness for C9 at a concrete mountain column. -/
theorem claim9_biome_height_coupling_witness :
    (tgGetBiome mountainOracle DEFAULT_TERRAIN_CONFIG emptyGenState
      0 0).1 = "mountain_peaks" :=
  claim9_biome_height_coupling mountainOracle DEFAULT_TERRAIN_CONFIG
    emptyGenState 0 0 (fun a b => by norm_num [mountainOracle])
    (by norm_num [DEFAULT_TERRAIN_CONFIG])
    (validGen_empty _ _)
    (by rw [mountainOracle_height]; norm_num)

/-! ## C3: air above surface -/

/-- On the generator path, everything strictly above both the terrain
height and the water level is air (the bedrock branch needs `y ≤ 3`,
impossible above a water level of at least 3; the cave branch needs
`y ≤ terrainHeight`). -/
theorem determineBlock_above_water_air (o : GenOracle) (cfg : TerrainConfig)
    (x y z : Int) (col : ColumnInfo)
    (hwl : 3 ≤ cfg.waterLevel) (hh : col.terrainHeight < y)
    (hwy : cfg.waterLevel < y) :
    determineBlock o cfg x y z col = BlockTypeIds.AIR := by
  unfold determineBlock
  rw [if_neg (by omega : ¬y ≤ 0)]
  rw [if_neg (by intro h; omega)]
  rw [if_neg (by intro h; omega)]
  rw [if_pos (by omega : y > col.terrainHeight)]
  rw [if_neg (by intro h; omega)]
  rw [if_neg (by omega : ¬y ≤ cfg.waterLevel)]

/-- **C3** (amended): for `y` strictly above both the column's terrain
height and the water level (water level at least 3),
`World.getBlockAt(x,y,z)` returns air provided the owning chunk is
absent or ungenerated and the block cache holds no entry for the
coordinate.  (Once the owning chunk is generated, tree/vegetation
decoration may occupy such positions — see the counterexample.) -/
theorem claim3_air_above_surface_amended (o : GenOracle)
    (cfg : TerrainConfig) (w : WorldT) (x y z : Int)
    (hwl : 3 ≤ cfg.waterLevel)
    (hv : ValidGen o cfg w.gen)
    (hh : (computeColumnInfo o cfg x z).terrainHeight < y)
    (hwy : cfg.waterLevel < y)
    (hcache : w.blockCache.lookup
      (cacheKeyChars (x.fdiv 16) (z.fdiv 16) x y z) = none)
    (hchunk : ∀ c, alLookup w.chunks
      (chunkKeyChars (x.fdiv 16) (z.fdiv 16)) = some c →
      c.isGenerated = false) :
    (worldGetBlockAt o cfg w x y z).1 = BlockTypeIds.AIR := by
  unfold worldGetBlockAt
  rw [if_neg (by omega : ¬y < 0)]
  by_cases h256 : 256 ≤ y
  · rw [if_pos h256]
  · rw [if_neg h256]
    dsimp only
    rw [LRUCache.get_of_lookup_none _ _ hcache]
    dsimp only
    have hfb : (tgGetBlockAt o cfg w.gen x y z).1 = BlockTypeIds.AIR := by
      unfold tgGetBlockAt
      dsimp only
      rw [calcColumnInfo_fst hv]
      exact determineBlock_above_water_air o cfg x y z _ hwl hh hwy
    cases hcl : alLookup w.chunks (chunkKeyChars (x.fdiv 16) (z.fdiv 16)) with
    | none => exact hfb
    | some c =>
      dsimp only
      rw [if_neg (by rw [hchunk c hcl]; simp)]
      exact hfb

theorem zeroOracle_colheight :
    (computeColumnInfo zeroOracle DEFAULT_TERRAIN_CONFIG 0 0).terrainHeight
      = 68 := by
  rw [computeColumnInfo_terrainHeight]
  have hq : columnHeightQ zeroOracle DEFAULT_TERRAIN_CONFIG 0 0 = 68 := by
    norm_num [columnHeightQ, splineBands, getContinentalness, getErosion,
      getPeaksAndValleys, getFBM2D, getRidgeNoise2D, fbm, rangeTwo,
      rangeThree, rangeFour, zeroOracle, DEFAULT_TERRAIN_CONFIG]
  rw [hq]
  norm_num

/-- Witness for the amended C3: `(0, 70, 0)` on a fresh world (terrain
height 68, water level 64) reads as air. -/
theorem claim3_air_above_surface_amended_witness :
    (worldGetBlockAt zeroOracle DEFAULT_TERRAIN_CONFIG (freshWorld 6)
      0 70 0).1 = BlockTypeIds.AIR :=
  claim3_air_above_surface_amended zeroOracle DEFAULT_TERRAIN_CONFIG
    (freshWorld 6) 0 70 0 (by norm_num [DEFAULT_TERRAIN_CONFIG])
    (validGen_empty _ _)
    (by rw [zeroOracle_colheight]; norm_num)
    (by norm_num [DEFAULT_TERRAIN_CONFIG])
    (by rfl)
    (fun c h => by simp [freshWorld, alLookup] at h)

/-! ## Generator-state flow through `Chunk.generate` -/

theorem tgGetBlockAt_snd (o : GenOracle) (cfg : TerrainConfig)
    (s : GenState) (x y z : Int) :
    (tgGetBlockAt o cfg s x y z).2 = (calculateColumnInfo o cfg s x z).2 :=
  rfl

theorem tgGetHeight_snd (o : GenOracle) (cfg : TerrainConfig)
    (s : GenState) (x z : Int) :
    (tgGetHeight o cfg s x z).2 = (calculateColumnInfo o cfg s x z).2 := rfl

theorem tgShouldPlaceTree_snd (o : GenOracle) (cfg : TerrainConfig)
    (s : GenState) (x z : Int) :
    (tgShouldPlaceTree o cfg s x z).2 =
      (calculateColumnInfo o cfg s x z).2 := rfl

theorem tgShouldPlaceVegetation_snd (o : GenOracle) (cfg : TerrainConfig)
    (s : GenState) (x z : Int) :
    (tgShouldPlaceVegetation o cfg s x z).2 =
      (calculateColumnInfo o cfg s x z).2 := rfl

theorem tgGetVegetationType_snd (o : GenOracle) (cfg : TerrainConfig)
    (s : GenState) (x z : Int) :
    (tgGetVegetationType o cfg s x z).2 =
      (calculateColumnInfo o cfg s x z).2 := rfl

theorem fillStep_snd (o : GenOracle) (cfg : TerrainConfig) (wx wz : Int)
    (lx lz : Nat) (a : ChunkT × GenState) (y : Nat) :
    (fillStep o cfg wx wz lx lz a y).2 =
      (calculateColumnInfo o cfg a.2 wx wz).2 := rfl

/-- Any property of the generator state preserved by
`calculateColumnInfo` is preserved by the decoration tail. -/
theorem decorateColumn_state (o : GenOracle) (cfg : TerrainConfig)
    (rng : Rng) (wx wz : Int) (lx lz : Nat) (filled : ChunkT × GenState)
    (P : GenState → Prop)
    (hcalc : ∀ s x z, P s → P (calculateColumnInfo o cfg s x z).2)
    (hP : P filled.2) :
    P (decorateColumn o cfg rng wx wz lx lz filled).2 := by
  unfold decorateColumn
  dsimp only
  have h1 : P (tgShouldPlaceTree o cfg filled.2 wx wz).2 := by
    rw [tgShouldPlaceTree_snd]; exact hcalc _ _ _ hP
  split
  · rw [tgGetHeight_snd]
    exact hcalc _ _ _ h1
  · have h2 : P (tgShouldPlaceVegetation o cfg
        (tgShouldPlaceTree o cfg filled.2 wx wz).2 wx wz).2 := by
      rw [tgShouldPlaceVegetation_snd]; exact hcalc _ _ _ h1
    split
    · unfold placeVegetation
      dsimp only
      have h3 : P (tgGetHeight o cfg (tgShouldPlaceVegetation o cfg
          (tgShouldPlaceTree o cfg filled.2 wx wz).2 wx wz).2 wx wz).2 := by
        rw [tgGetHeight_snd]; exact hcalc _ _ _ h2
      split
      · exact h3
      · have h4 : P (tgGetVegetationType o cfg (tgGetHeight o cfg
            (tgShouldPlaceVegetation o cfg (tgShouldPlaceTree o cfg
              filled.2 wx wz).2 wx wz).2 wx wz).2 wx wz).2 := by
          rw [tgGetVegetationType_snd]; exact hcalc _ _ _ h3
        split
        · exact h4
        · exact h4
    · exact h2

theorem genColumn_state (o : GenOracle) (cfg : TerrainConfig) (rng : Rng)
    (acc : ChunkT × GenState) (lx lz : Nat) (P : GenState → Prop)
    (hcalc : ∀ s x z, P s → P (calculateColumnInfo o cfg s x z).2)
    (hP : P acc.2) :
    P (genColumn o cfg rng acc lx lz).2 := by
  unfold genColumn
  dsimp only
  refine decorateColumn_state o cfg rng _ _ lx lz _ P hcalc ?_
  refine foldl_invariant (fun st => P st.2) _ (List.range 256) acc hP ?_
  intro b a _ hb
  show P (fillStep o cfg _ _ lx lz b a).2
  rw [fillStep_snd]
  exact hcalc _ _ _ hb

theorem genFinish_snd (r : ChunkT × GenState) : (genFinish r).2 = r.2 := rfl

theorem genFinish_fst (r : ChunkT × GenState) :
    (genFinish r).1 = { r.1 with isGenerated := true } := rfl

theorem chunkGenerate_state (o : GenOracle) (cfg : TerrainConfig)
    (rng : Rng) (c : ChunkT) (s : GenState) (P : GenState → Prop)
    (hcalc : ∀ s' x z, P s' → P (calculateColumnInfo o cfg s' x z).2)
    (hP : P s) :
    P (chunkGenerate o cfg rng c s).2 := by
  by_cases hc : c.isGenerated = true
  · rw [chunkGenerate, if_pos hc]
    exact hP
  · rw [chunkGenerate, if_neg hc, genFinish_snd]
    refine foldl_invariant (fun (st : ChunkT × GenState) => P st.2) _
      chunkColumns (c, s) hP ?_
    intro b a _ hb
    exact genColumn_state o cfg rng b a.1 a.2 P hcalc hb

/-- After a column's fill loop, the generator memo holds that column. -/
theorem fillFold_cache_mem (o : GenOracle) (cfg : TerrainConfig)
    (wx wz : Int) (lx lz : Nat) (acc : ChunkT × GenState) :
    ((((List.range 256).foldl (fillStep o cfg wx wz lx lz) acc).2
      ).lookupCol (wx, wz)).isSome = true := by
  rw [List.range_succ_eq_map, List.foldl_cons]
  refine foldl_invariant
    (fun (st : ChunkT × GenState) => ((st.2).lookupCol (wx, wz)).isSome = true)
    _ _ _ ?_ ?_
  · show (((fillStep o cfg wx wz lx lz acc 0).2).lookupCol (wx, wz)).isSome = true
    rw [fillStep_snd]
    exact calcColumnInfo_mem o cfg acc.2 wx wz
  · intro b a _ hb
    show (((fillStep o cfg wx wz lx lz b a).2).lookupCol (wx, wz)).isSome = true
    rw [fillStep_snd]
    exact calcColumnInfo_mono hb wx wz

theorem genColumn_cache_mem (o : GenOracle) (cfg : TerrainConfig)
    (rng : Rng) (acc : ChunkT × GenState) (lx lz : Nat) :
    (((genColumn o cfg rng acc lx lz).2).lookupCol
      (acc.1.x * 16 + (lx : Int), acc.1.z * 16 + (lz : Int))).isSome =
      true := by
  unfold genColumn
  dsimp only
  refine decorateColumn_state o cfg rng _ _ lx lz _
    (fun s => ((s.lookupCol (acc.1.x * 16 + (lx : Int),
      acc.1.z * 16 + (lz : Int)))).isSome = true)
    (fun s x z hs => calcColumnInfo_mono hs x z) ?_
  exact fillFold_cache_mem o cfg _ _ lx lz acc

/-- The first column visited by `Chunk.generate` is `(0, 0)`, and no
later column of the iteration order is `(0, 0)` again. -/
theorem chunkColumns_decomp :
    ∃ t, chunkColumns = ((0 : Nat), (0 : Nat)) :: t ∧
      ∀ p ∈ t, ¬(p.1 = 0 ∧ p.2 = 0) := by
  unfold chunkColumns
  rw [show (16 : Nat) = 15 + 1 from rfl, List.range_succ_eq_map,
    List.flatMap_cons, List.map_cons, List.cons_append]
  refine ⟨_, rfl, ?_⟩
  intro p hp
  rcases List.mem_append.mp hp with h | h
  · obtain ⟨lz, hlz, rfl⟩ := List.mem_map.mp h
    obtain ⟨m, _, rfl⟩ := List.mem_map.mp hlz
    simp
  · obtain ⟨lx, hlx, hpm⟩ := List.mem_flatMap.mp h
    obtain ⟨m, _, rfl⟩ := List.mem_map.mp hlx
    obtain ⟨lz, _, rfl⟩ := List.mem_map.mp hpm
    simp

/-- After `Chunk.generate` on an ungenerated chunk, the generator's
column memo holds (at least) the chunk's first column. -/
theorem chunkGenerate_cache_mem (o : GenOracle) (cfg : TerrainConfig)
    (rng : Rng) (c : ChunkT) (s : GenState) (hng : c.isGenerated = false) :
    (((chunkGenerate o cfg rng c s).2).lookupCol
      (c.x * 16, c.z * 16)).isSome = true := by
  rw [chunkGenerate, if_neg (by simp [hng]), genFinish_snd]
  obtain ⟨t, ht, _⟩ := chunkColumns_decomp
  rw [ht, List.foldl_cons]
  have h := genColumn_cache_mem o cfg rng (c, s) 0 0
  have h' : (((genColumn o cfg rng (c, s) 0 0).2).lookupCol
      (c.x * 16 + ((0 : Nat) : Int),
        c.z * 16 + ((0 : Nat) : Int))).isSome = true := h
  have e : ((c.x * 16 + ((0 : Nat) : Int) : Int),
      (c.z * 16 + ((0 : Nat) : Int) : Int)) =
      ((c.x * 16 : Int), (c.z * 16 : Int)) := by norm_num
  rw [e] at h'
  refine foldl_invariant
    (fun (st : ChunkT × GenState) =>
      ((st.2).lookupCol (c.x * 16, c.z * 16)).isSome = true)
    _ t _ ?_ ?_
  · show (((genColumn o cfg rng (c, s) 0 0).2).lookupCol
      (c.x * 16, c.z * 16)).isSome = true
    exact h'
  · intro b a _ hb
    show (((genColumn o cfg rng b a.1 a.2).2).lookupCol
      (c.x * 16, c.z * 16)).isSome = true
    exact genColumn_state o cfg rng b a.1 a.2
      (fun s' => ((s'.lookupCol (c.x * 16, c.z * 16))).isSome = true)
      (fun s' x z hs => calcColumnInfo_mono hs x z) hb

/-! ## C5: the per-column memo lifecycle -/

/-- A fixed `Math.random` model for concrete scenarios: every tree rolls
height 4 and no leaf corner is skipped. -/
def defaultRng : Rng :=
  { treeHeightRoll := fun _ _ => 4, leafSkip := fun _ _ _ _ _ => false }

/-- `TerrainGenerator.generateChunkData` ends with
`this.columnCache.clear()`: the state it returns has an empty memo. -/
theorem genChunkData_clears (o : GenOracle) (cfg : TerrainConfig)
    (s : GenState) (cx cz : Int) :
    (generateChunkData o cfg s cx cz).2.columnCache = [] := rfl

theorem lookupCol_nil_none (s : GenState) (h : s.columnCache = [])
    (k : Int × Int) : s.lookupCol k = none := by
  unfold GenState.lookupCol
  rw [h]
  rfl

/-- **C5** (amended): the per-column memo is populated lazily and is
cleared when `generateChunkData` completes — that function's returned
state has an empty `columnCache`.  `Chunk.generate`, however, fills its
voxels through per-voxel `getBlockAt` calls and never runs
`generateChunkData`, so after it returns on an ungenerated chunk the
memo still holds that chunk's columns (the first column is present). -/
theorem claim5_column_cache_lifecycle (o : GenOracle) (cfg : TerrainConfig)
    (rng : Rng) (c : ChunkT) (s sd : GenState) (cx cz : Int)
    (hng : c.isGenerated = false) :
    (generateChunkData o cfg sd cx cz).2.columnCache = [] ∧
    (((chunkGenerate o cfg rng c s).2).lookupCol
      (c.x * 16, c.z * 16)).isSome = true :=
  ⟨genChunkData_clears o cfg sd cx cz,
    chunkGenerate_cache_mem o cfg rng c s hng⟩

theorem claim5_column_cache_lifecycle_witness :
    (newChunk 1 2).isGenerated = false ∧
    ((generateChunkData zeroOracle DEFAULT_TERRAIN_CONFIG emptyGenState
        0 0).2.columnCache = [] ∧
      (((chunkGenerate zeroOracle DEFAULT_TERRAIN_CONFIG defaultRng
        (newChunk 1 2) emptyGenState).2).lookupCol
        ((newChunk 1 2).x * 16, (newChunk 1 2).z * 16)).isSome = true) :=
  ⟨rfl, claim5_column_cache_lifecycle zeroOracle DEFAULT_TERRAIN_CONFIG
    defaultRng (newChunk 1 2) emptyGenState emptyGenState 0 0 rfl⟩

/-- **C5** (counterexample to the claim as stated): after
`Chunk.generate()` returns on a fresh chunk, the generator's column
cache is *not* empty — `Chunk.generate` never calls the only routine
that clears it. -/
theorem claim5_column_cache_lifecycle_cex :
    ((chunkGenerate zeroOracle DEFAULT_TERRAIN_CONFIG defaultRng
      (newChunk 0 0) emptyGenState).2).columnCache ≠ [] := by
  intro hnil
  have h := chunkGenerate_cache_mem zeroOracle DEFAULT_TERRAIN_CONFIG
    defaultRng (newChunk 0 0) emptyGenState rfl
  rw [lookupCol_nil_none _ hnil] at h
  simp at h

/-! ## A tree-growing oracle (C1/C3 counterexample scenario)

A constant noise valuation under which every column has terrain height
70 and biome `plains`, and the placement hash fires only at world column
`(0, 0)` — so `Chunk.generate` on chunk `(0, 0)` grows exactly one tree,
whose trunk occupies `(0, 71, 0)`, one block above the surface. -/

def treeOracle : GenOracle :=
  { noise2D := fun _ _ => 1/10, noise3D := fun _ _ _ => 1,
    cave3D := fun _ _ _ => 0, biome2D := fun _ _ => 0,
    erosion2D := fun _ _ => 0,
    hashTree := fun x z => if x = 0 ∧ z = 0 then 99/100 else 0,
    hashVeg := fun _ _ => 0, hashVegKind := fun _ _ => 0 }

/-- The column record every column gets under `treeOracle`:
`continentalness = erosion = 1/10`, height `68 + 0.1 * 24 = 70.4`,
floored to 70; adjusted temperature and humidity 0 give `plains`. -/
def treeColInfo : ColumnInfo :=
  { terrainHeight := 70, biome := ⟨0, 0, "plains"⟩,
    continentalness := 1/10, erosion := 1/10,
    isOcean := false, isBeach := false, isMountain := false,
    isRiver := false }

theorem treeOracle_colheightQ (x z : Int) :
    columnHeightQ treeOracle DEFAULT_TERRAIN_CONFIG x z = 352/5 := by
  norm_num [columnHeightQ, splineBands, getContinentalness, getErosion,
    getPeaksAndValleys, getFBM2D, getRidgeNoise2D, fbm, rangeTwo,
    rangeThree, rangeFour, treeOracle, DEFAULT_TERRAIN_CONFIG]

theorem treeOracle_colinfo (x z : Int) :
    computeColumnInfo treeOracle DEFAULT_TERRAIN_CONFIG x z = treeColInfo := by
  have hf : ⌊(352/5 : ℚ)⌋ = (70 : Int) := by
    rw [Int.floor_eq_iff]
    norm_num
  unfold computeColumnInfo
  dsimp only
  rw [treeOracle_colheightQ]
  norm_num [splineBands, getContinentalness, getErosion, getWeirdness,
    getPeaksAndValleys, getTemperature, getHumidity, getFBM2D,
    getRidgeNoise2D, fbm, rangeTwo, rangeThree, rangeFour, determineBiome,
    treeOracle, DEFAULT_TERRAIN_CONFIG, treeColInfo, hf]
  rw [abs_of_nonneg (by norm_num : (0 : ℚ) ≤ 1/10)]
  norm_num

theorem charsContains_plains_snowyplains :
    charsContains ("plains".toList) ("snowy_plains".toList) = false := by
  decide

theorem charsContains_plains_snowy :
    charsContains ("plains".toList) ("snowy".toList) = false := by
  decide

theorem treeOracle_height {s : GenState}
    (hv : ValidGen treeOracle DEFAULT_TERRAIN_CONFIG s) (x z : Int) :
    (tgGetHeight treeOracle DEFAULT_TERRAIN_CONFIG s x z).1 = 70 := by
  unfold tgGetHeight
  dsimp only
  rw [calcColumnInfo_fst hv, treeOracle_colinfo]
  rfl

theorem plains_tree_threshold :
    (if "plains" = "forest" then (0.97 : ℚ)
      else if "plains" = "jungle" then 0.95
      else if "plains" = "taiga" ∨ "plains" = "snowy_taiga" then 0.975
      else if "plains" = "savanna" then 0.995
      else 0.985) = 0.985 := by
  simp

theorem treeOracle_spt {s : GenState}
    (hv : ValidGen treeOracle DEFAULT_TERRAIN_CONFIG s) (x z : Int) :
    (tgShouldPlaceTree treeOracle DEFAULT_TERRAIN_CONFIG s x z).1 =
      decide (x = 0 ∧ z = 0) := by
  unfold tgShouldPlaceTree
  dsimp only
  rw [calcColumnInfo_fst hv, treeOracle_colinfo]
  simp only [treeColInfo, treeOracle]
  rw [if_neg (by simp), if_neg (by simp),
    if_neg (by rw [charsContains_plains_snowyplains]; simp),
    if_neg (by norm_num), plains_tree_threshold]
  by_cases hxz : x = 0 ∧ z = 0
  · rw [if_pos hxz, decide_eq_true hxz]
    exact decide_eq_true (by norm_num)
  · rw [if_neg hxz, decide_eq_false hxz]
    exact decide_eq_false (by norm_num)

theorem treeOracle_spv {s : GenState}
    (hv : ValidGen treeOracle DEFAULT_TERRAIN_CONFIG s) (x z : Int) :
    (tgShouldPlaceVegetation treeOracle DEFAULT_TERRAIN_CONFIG s x z).1 =
      false := by
  unfold tgShouldPlaceVegetation
  dsimp only
  rw [calcColumnInfo_fst hv, treeOracle_colinfo]
  simp only [treeColInfo, treeOracle]
  rw [if_neg (by simp), if_neg (by simp), if_neg (by simp),
    if_neg (by rw [charsContains_plains_snowy]; simp),
    if_neg (by norm_num)]
  exact decide_eq_false (by norm_num)

theorem chunkSetBlock_isBuilt (c : ChunkT) (x y z : Int) (t : Nat) :
    (chunkSetBlock c x y z t).isBuilt = c.isBuilt := by
  unfold chunkSetBlock
  split <;> rfl

theorem chunkBuildMesh_isGenerated (c : ChunkT) :
    (chunkBuildMesh c).isGenerated = c.isGenerated := by
  unfold chunkBuildMesh
  split <;> rfl

theorem chunkGetBlock_buildMesh (c : ChunkT) (x y z : Int) :
    chunkGetBlock (chunkBuildMesh c) x y z = chunkGetBlock c x y z := by
  unfold chunkGetBlock
  rw [chunkBuildMesh_blocks]

theorem genFinish_blocks (r : ChunkT × GenState) :
    (genFinish r).1.blocks = r.1.blocks := rfl

theorem genFinish_isGenerated (r : ChunkT × GenState) :
    (genFinish r).1.isGenerated = true := rfl

theorem genFinish_x (r : ChunkT × GenState) : (genFinish r).1.x = r.1.x := rfl

theorem genFinish_z (r : ChunkT × GenState) : (genFinish r).1.z = r.1.z := rfl

theorem genFinish_isBuilt (r : ChunkT × GenState) :
    (genFinish r).1.isBuilt = r.1.isBuilt := rfl

theorem chunkGetBlock_genFinish (r : ChunkT × GenState) (x y z : Int) :
    chunkGetBlock (genFinish r).1 x y z = chunkGetBlock r.1 x y z := by
  unfold chunkGetBlock
  rw [genFinish_blocks]

theorem intRange_lower {a b p : Int} (h : p ∈ intRange a b) : a ≤ p := by
  unfold intRange at h
  rw [List.mem_map] at h
  obtain ⟨i, hi, rfl⟩ := h
  omega

theorem intRange_upper {a b p : Int} (h : p ∈ intRange a b) : p ≤ b := by
  unfold intRange at h
  rw [List.mem_map] at h
  obtain ⟨i, hi, rfl⟩ := h
  rw [List.mem_range] at hi
  omega

theorem intRange_mem {a b p : Int} (h1 : a ≤ p) (h2 : p ≤ b) :
    p ∈ intRange a b := by
  unfold intRange
  rw [List.mem_map]
  refine ⟨(p - a).toNat, ?_, by omega⟩
  rw [List.mem_range]
  omega

theorem placeTree_fields (rng : Rng) (c : ChunkT) (lx wz sy : Int) :
    (placeTree rng c lx wz sy).x = c.x ∧
    (placeTree rng c lx wz sy).z = c.z ∧
    (placeTree rng c lx wz sy).isGenerated = c.isGenerated ∧
    (placeTree rng c lx wz sy).isBuilt = c.isBuilt := by
  have hset : ∀ (cc : ChunkT) (x y z : Int) (t : Nat),
      (cc.x = c.x ∧ cc.z = c.z ∧ cc.isGenerated = c.isGenerated ∧
        cc.isBuilt = c.isBuilt) →
      ((chunkSetBlock cc x y z t).x = c.x ∧
        (chunkSetBlock cc x y z t).z = c.z ∧
        (chunkSetBlock cc x y z t).isGenerated = c.isGenerated ∧
        (chunkSetBlock cc x y z t).isBuilt = c.isBuilt) := by
    intro cc x y z t h
    rw [chunkSetBlock_x, chunkSetBlock_z, chunkSetBlock_isGenerated,
      chunkSetBlock_isBuilt]
    exact h
  unfold placeTree
  by_cases hs : sy < 35
  · rw [if_pos hs]
    exact ⟨rfl, rfl, rfl, rfl⟩
  · rw [if_neg hs]
    dsimp only
    refine foldl_invariant (fun cc : ChunkT => cc.x = c.x ∧ cc.z = c.z ∧
      cc.isGenerated = c.isGenerated ∧ cc.isBuilt = c.isBuilt) _ _ _ ?_ ?_
    · refine foldl_invariant (fun cc : ChunkT => cc.x = c.x ∧ cc.z = c.z ∧
        cc.isGenerated = c.isGenerated ∧ cc.isBuilt = c.isBuilt) _ _ _
        ⟨rfl, rfl, rfl, rfl⟩ ?_
      intro b a _ hb
      dsimp only
      split
      · exact hset b _ _ _ _ hb
      · exact hb
    · intro b a _ hb
      dsimp only
      refine foldl_invariant (fun cc : ChunkT => cc.x = c.x ∧ cc.z = c.z ∧
        cc.isGenerated = c.isGenerated ∧ cc.isBuilt = c.isBuilt) _ _ _ hb ?_
      intro b2 a2 _ hb2
      dsimp only
      refine foldl_invariant (fun cc : ChunkT => cc.x = c.x ∧ cc.z = c.z ∧
        cc.isGenerated = c.isGenerated ∧ cc.isBuilt = c.isBuilt) _ _ _ hb2 ?_
      intro b3 a3 _ hb3
      dsimp only
      repeat' split
      all_goals first
        | exact hb3
        | exact hset b3 _ _ _ _ hb3

/-- The tree planted at local column `(0,0)` with surface height 70 puts
WOOD at `(0, 71, 0)`: trunk writes hit `y = 71..74` (the `y = 71` write
first), leaves only touch `y ≥ 72`. -/
theorem placeTree_tree_block (c : ChunkT) :
    chunkGetBlock (placeTree defaultRng c 0 0 70) 0 71 0 =
      BlockTypeIds.WOOD := by
  unfold placeTree
  rw [if_neg (by norm_num : ¬(70 : Int) < 35)]
  dsimp only
  simp only [defaultRng]
  refine foldl_invariant
    (fun cc : ChunkT => chunkGetBlock cc 0 71 0 = BlockTypeIds.WOOD) _ _ _ ?_ ?_
  · rw [rangeFour]
    simp only [List.foldl_cons, List.foldl_nil]
    norm_num
    rw [chunkGetBlock_setBlock_other _ _ (by norm_num),
      chunkGetBlock_setBlock_other _ _ (by norm_num),
      chunkGetBlock_setBlock_other _ _ (by norm_num),
      chunkGetBlock_setBlock_self _ _ (by norm_num) (by norm_num)
        (by norm_num)]
    rfl
  · intro b dy hdy hb
    dsimp only
    have hdy0 : (0 : Int) ≤ dy := intRange_lower hdy
    refine foldl_invariant
      (fun cc : ChunkT => chunkGetBlock cc 0 71 0 = BlockTypeIds.WOOD)
      _ _ _ hb ?_
    intro b2 dx _ hb2
    dsimp only
    refine foldl_invariant
      (fun cc : ChunkT => chunkGetBlock cc 0 71 0 = BlockTypeIds.WOOD)
      _ _ _ hb2 ?_
    intro b3 dz _ hb3
    dsimp only
    repeat' split
    all_goals first
      | exact hb3
      | exact (chunkGetBlock_setBlock_other b3 _ (by
          intro hcon
          obtain ⟨h1, h2, h3⟩ := hcon
          omega)).trans hb3

theorem fillFold_valid (o : GenOracle) (cfg : TerrainConfig) (wx wz : Int)
    (lx lz : Nat) (acc : ChunkT × GenState)
    (hv : ValidGen o cfg acc.2) :
    ValidGen o cfg (((List.range 256).foldl
      (fillStep o cfg wx wz lx lz) acc).2) := by
  refine foldl_invariant (fun st : ChunkT × GenState => ValidGen o cfg st.2)
    _ _ _ hv ?_
  intro b a _ hb
  show ValidGen o cfg (fillStep o cfg wx wz lx lz b a).2
  rw [fillStep_snd]
  exact calcColumnInfo_valid hb _ _

theorem fillFold_fields (o : GenOracle) (cfg : TerrainConfig) (wx wz : Int)
    (lx lz : Nat) (acc : ChunkT × GenState) :
    ((List.range 256).foldl (fillStep o cfg wx wz lx lz) acc).1.x
        = acc.1.x ∧
    ((List.range 256).foldl (fillStep o cfg wx wz lx lz) acc).1.z
        = acc.1.z ∧
    ((List.range 256).foldl (fillStep o cfg wx wz lx lz) acc).1.isGenerated
        = acc.1.isGenerated ∧
    ((List.range 256).foldl (fillStep o cfg wx wz lx lz) acc).1.isBuilt
        = acc.1.isBuilt := by
  refine foldl_invariant (fun st : ChunkT × GenState =>
    st.1.x = acc.1.x ∧ st.1.z = acc.1.z ∧
    st.1.isGenerated = acc.1.isGenerated ∧ st.1.isBuilt = acc.1.isBuilt)
    _ _ _ ⟨rfl, rfl, rfl, rfl⟩ ?_
  intro b a _ hb
  show (fillStep o cfg wx wz lx lz b a).1.x = acc.1.x ∧
    (fillStep o cfg wx wz lx lz b a).1.z = acc.1.z ∧
    (fillStep o cfg wx wz lx lz b a).1.isGenerated = acc.1.isGenerated ∧
    (fillStep o cfg wx wz lx lz b a).1.isBuilt = acc.1.isBuilt
  unfold fillStep
  dsimp only
  rw [chunkSetBlock_x, chunkSetBlock_z, chunkSetBlock_isGenerated,
    chunkSetBlock_isBuilt]
  exact hb

theorem fillFold_block_pres (o : GenOracle) (cfg : TerrainConfig)
    (wx wz : Int) (lx lz : Nat) (acc : ChunkT × GenState)
    (qx qy qz : Int) (hne : ¬(qx = (lx : Int) ∧ qz = (lz : Int))) :
    chunkGetBlock ((List.range 256).foldl
      (fillStep o cfg wx wz lx lz) acc).1 qx qy qz =
      chunkGetBlock acc.1 qx qy qz := by
  refine foldl_invariant (fun st : ChunkT × GenState =>
    chunkGetBlock st.1 qx qy qz = chunkGetBlock acc.1 qx qy qz)
    _ _ _ rfl ?_
  intro b a _ hb
  show chunkGetBlock (fillStep o cfg wx wz lx lz b a).1 qx qy qz =
    chunkGetBlock acc.1 qx qy qz
  unfold fillStep
  dsimp only
  rw [chunkGetBlock_setBlock_other _ _ (by tauto)]
  exact hb

/-- Generating column `(0, 0)` of a chunk at chunk coordinates `(0, 0)`
under `treeOracle` plants the tree: WOOD ends up at `(0, 71, 0)`. -/
theorem genColumn_tree_est (c0 : ChunkT) (s : GenState)
    (hx : c0.x = 0) (hz : c0.z = 0)
    (hv : ValidGen treeOracle DEFAULT_TERRAIN_CONFIG s) :
    chunkGetBlock (genColumn treeOracle DEFAULT_TERRAIN_CONFIG defaultRng
        (c0, s) 0 0).1 0 71 0 = BlockTypeIds.WOOD ∧
    (genColumn treeOracle DEFAULT_TERRAIN_CONFIG defaultRng
        (c0, s) 0 0).1.x = 0 ∧
    (genColumn treeOracle DEFAULT_TERRAIN_CONFIG defaultRng
        (c0, s) 0 0).1.z = 0 ∧
    (genColumn treeOracle DEFAULT_TERRAIN_CONFIG defaultRng
        (c0, s) 0 0).1.isGenerated = c0.isGenerated ∧
    (genColumn treeOracle DEFAULT_TERRAIN_CONFIG defaultRng
        (c0, s) 0 0).1.isBuilt = c0.isBuilt ∧
    ValidGen treeOracle DEFAULT_TERRAIN_CONFIG
      (genColumn treeOracle DEFAULT_TERRAIN_CONFIG defaultRng
        (c0, s) 0 0).2 := by
  unfold genColumn
  dsimp only
  rw [hx, hz, Nat.cast_zero,
    show (0 : Int) * 16 + 0 = 0 from by norm_num]
  have hvF := fillFold_valid treeOracle DEFAULT_TERRAIN_CONFIG 0 0 0 0
    (c0, s) hv
  have hfF := fillFold_fields treeOracle DEFAULT_TERRAIN_CONFIG 0 0 0 0
    (c0, s)
  unfold decorateColumn
  dsimp only
  rw [treeOracle_spt hvF,
    if_pos (by decide :
      decide ((0 : Int) = 0 ∧ (0 : Int) = 0) = true)]
  have hvrt : ValidGen treeOracle DEFAULT_TERRAIN_CONFIG
      ((tgShouldPlaceTree treeOracle DEFAULT_TERRAIN_CONFIG
        ((List.range 256).foldl
          (fillStep treeOracle DEFAULT_TERRAIN_CONFIG 0 0 0 0) (c0, s)).2
        0 0).2) := by
    rw [tgShouldPlaceTree_snd]
    exact calcColumnInfo_valid hvF 0 0
  rw [treeOracle_height hvrt]
  have hpf := placeTree_fields defaultRng
    ((List.range 256).foldl
      (fillStep treeOracle DEFAULT_TERRAIN_CONFIG 0 0 0 0) (c0, s)).1 0 0 70
  refine ⟨?_, ?_, ?_, ?_, ?_, ?_⟩
  · exact placeTree_tree_block _
  · exact hpf.1.trans (hfF.1.trans (by rw [hx]))
  · exact hpf.2.1.trans (hfF.2.1.trans (by rw [hz]))
  · exact hpf.2.2.1.trans hfF.2.2.1
  · exact hpf.2.2.2.trans hfF.2.2.2
  · rw [tgGetHeight_snd]
    exact calcColumnInfo_valid hvrt 0 0

/-- Generating any other column of chunk `(0, 0)` under `treeOracle`
leaves the trunk voxel `(0, 71, 0)` untouched: its fill loop writes only
its own `(lx, lz)` column, its tree test fails (the hash fires only at
world column `(0, 0)`) and its vegetation test always fails. -/
theorem genColumn_tree_pres (st : ChunkT × GenState) (lx lz : Nat)
    (hne : ¬(lx = 0 ∧ lz = 0))
    (hx : st.1.x = 0) (hz : st.1.z = 0)
    (hv : ValidGen treeOracle DEFAULT_TERRAIN_CONFIG st.2)
    (hblk : chunkGetBlock st.1 0 71 0 = BlockTypeIds.WOOD) :
    chunkGetBlock (genColumn treeOracle DEFAULT_TERRAIN_CONFIG defaultRng
        st lx lz).1 0 71 0 = BlockTypeIds.WOOD ∧
    (genColumn treeOracle DEFAULT_TERRAIN_CONFIG defaultRng
        st lx lz).1.x = 0 ∧
    (genColumn treeOracle DEFAULT_TERRAIN_CONFIG defaultRng
        st lx lz).1.z = 0 ∧
    (genColumn treeOracle DEFAULT_TERRAIN_CONFIG defaultRng
        st lx lz).1.isGenerated = st.1.isGenerated ∧
    (genColumn treeOracle DEFAULT_TERRAIN_CONFIG defaultRng
        st lx lz).1.isBuilt = st.1.isBuilt ∧
    ValidGen treeOracle DEFAULT_TERRAIN_CONFIG
      (genColumn treeOracle DEFAULT_TERRAIN_CONFIG defaultRng st lx lz).2 := by
  unfold genColumn
  dsimp only
  rw [hx, hz,
    show (0 : Int) * 16 + (lx : Int) = (lx : Int) from by norm_num,
    show (0 : Int) * 16 + (lz : Int) = (lz : Int) from by norm_num]
  have hvF := fillFold_valid treeOracle DEFAULT_TERRAIN_CONFIG
    (lx : Int) (lz : Int) lx lz st hv
  have hfF := fillFold_fields treeOracle DEFAULT_TERRAIN_CONFIG
    (lx : Int) (lz : Int) lx lz st
  have hbF : chunkGetBlock ((List.range 256).foldl
      (fillStep treeOracle DEFAULT_TERRAIN_CONFIG (lx : Int) (lz : Int)
        lx lz) st).1 0 71 0 = BlockTypeIds.WOOD := by
    rw [fillFold_block_pres treeOracle DEFAULT_TERRAIN_CONFIG
      (lx : Int) (lz : Int) lx lz st 0 71 0 (by
        intro hcon
        obtain ⟨h1, h2⟩ := hcon
        exact hne ⟨by exact_mod_cast h1.symm, by exact_mod_cast h2.symm⟩)]
    exact hblk
  unfold decorateColumn
  dsimp only
  rw [treeOracle_spt hvF,
    if_neg (by
      simp only [decide_eq_true_eq, Nat.cast_eq_zero]
      exact hne)]
  have hvrt : ValidGen treeOracle DEFAULT_TERRAIN_CONFIG
      ((tgShouldPlaceTree treeOracle DEFAULT_TERRAIN_CONFIG
        ((List.range 256).foldl
          (fillStep treeOracle DEFAULT_TERRAIN_CONFIG (lx : Int) (lz : Int)
            lx lz) st).2 (lx : Int) (lz : Int)).2) := by
    rw [tgShouldPlaceTree_snd]
    exact calcColumnInfo_valid hvF _ _
  rw [treeOracle_spv hvrt, if_neg (by simp)]
  refine ⟨hbF, hfF.1.trans hx, hfF.2.1.trans hz, hfF.2.2.1, hfF.2.2.2, ?_⟩
  rw [tgShouldPlaceVegetation_snd]
  exact calcColumnInfo_valid hvrt _ _

/-- The invariant carried across the per-column loop of `Chunk.generate`
in the `treeOracle` scenario. -/
def TreeInv (st : ChunkT × GenState) : Prop :=
  chunkGetBlock st.1 0 71 0 = BlockTypeIds.WOOD ∧ st.1.x = 0 ∧
  st.1.z = 0 ∧ st.1.isGenerated = false ∧ st.1.isBuilt = false ∧
  ValidGen treeOracle DEFAULT_TERRAIN_CONFIG st.2

/-- `Chunk.generate` on a fresh chunk `(0, 0)` under `treeOracle`: the
resulting chunk is generated (not yet meshed), sits at `(0, 0)`, carries
WOOD at `(0, 71, 0)` — one block above the uniform terrain height 70 —
and the threaded generator state stays valid. -/
theorem treeGenerate_facts (s : GenState)
    (hv : ValidGen treeOracle DEFAULT_TERRAIN_CONFIG s) :
    chunkGetBlock (chunkGenerate treeOracle DEFAULT_TERRAIN_CONFIG
        defaultRng (newChunk 0 0) s).1 0 71 0 = BlockTypeIds.WOOD ∧
    (chunkGenerate treeOracle DEFAULT_TERRAIN_CONFIG defaultRng
        (newChunk 0 0) s).1.isGenerated = true ∧
    (chunkGenerate treeOracle DEFAULT_TERRAIN_CONFIG defaultRng
        (newChunk 0 0) s).1.x = 0 ∧
    (chunkGenerate treeOracle DEFAULT_TERRAIN_CONFIG defaultRng
        (newChunk 0 0) s).1.z = 0 ∧
    (chunkGenerate treeOracle DEFAULT_TERRAIN_CONFIG defaultRng
        (newChunk 0 0) s).1.isBuilt = false ∧
    ValidGen treeOracle DEFAULT_TERRAIN_CONFIG
      (chunkGenerate treeOracle DEFAULT_TERRAIN_CONFIG defaultRng
        (newChunk 0 0) s).2 := by
  rw [chunkGenerate, if_neg (by simp [newChunk])]
  obtain ⟨t, ht, htail⟩ := chunkColumns_decomp
  rw [ht, List.foldl_cons]
  have hInv : TreeInv (t.foldl
      (fun acc p => genColumn treeOracle DEFAULT_TERRAIN_CONFIG
        defaultRng acc p.1 p.2)
      (genColumn treeOracle DEFAULT_TERRAIN_CONFIG defaultRng
        (newChunk 0 0, s) 0 0)) := by
    refine foldl_invariant TreeInv _ t _ ?_ ?_
    · have h := genColumn_tree_est (newChunk 0 0) s rfl rfl hv
      exact ⟨h.1, h.2.1, h.2.2.1, h.2.2.2.1, h.2.2.2.2.1, h.2.2.2.2.2⟩
    · intro b a ha hb
      obtain ⟨h1, h2, h3, h4, h5, h6⟩ := hb
      show TreeInv (genColumn treeOracle DEFAULT_TERRAIN_CONFIG
        defaultRng b a.1 a.2)
      have h := genColumn_tree_pres b a.1 a.2 (htail a ha) h2 h3 h6 h1
      exact ⟨h.1, h.2.1, h.2.2.1, h.2.2.2.1.trans h4,
        h.2.2.2.2.1.trans h5, h.2.2.2.2.2⟩
  obtain ⟨g1, g2, g3, g4, g5, g6⟩ := hInv
  refine ⟨?_, ?_, ?_, ?_, ?_, ?_⟩
  · rw [chunkGetBlock_genFinish]
    exact g1
  · rw [genFinish_isGenerated]
  · rw [genFinish_x]
    exact g2
  · rw [genFinish_z]
    exact g3
  · rw [genFinish_isBuilt]
    exact g5
  · rw [genFinish_snd]
    exact g6

theorem treeCandidates : worldCandidates 0 0 0 = [⟨0, 0, 0⟩] := by rfl

theorem alSet_cons_self {κ ν : Type} [BEq κ] [LawfulBEq κ] (k : κ)
    (v v' : ν) (t : List (κ × ν)) :
    alSet ((k, v) :: t) k v' = (k, v') :: t := by
  simp [alSet]

/-- One pass of `World.update`'s load loop over the single candidate
`(0, 0)` of a renderDistance-0 world with no live chunks: the chunk is
created, generated (first quota slot) and meshed (second slot). -/
theorem loadStep_eval (o : GenOracle) (cfg : TerrainConfig) (rng : Rng)
    (g : GenState) (G : ChunkT × GenState)
    (hG : chunkGenerate o cfg rng (newChunk 0 0) g = G)
    (hgen : G.1.isGenerated = true) (hbuilt : G.1.isBuilt = false) :
    loadStep o cfg rng ([], g, 0) ⟨0, 0, 0⟩ =
      ([(chunkKeyChars 0 0, chunkBuildMesh G.1)], G.2, 2) := by
  unfold loadStep
  dsimp only
  rw [alLookup_nil]
  dsimp only
  rw [if_pos (⟨rfl, by norm_num⟩ :
    (newChunk 0 0).isGenerated = false ∧ 0 < 2)]
  rw [hG]
  dsimp only
  rw [if_pos ⟨hgen, hbuilt, by norm_num⟩]
  dsimp only
  rw [List.nil_append, alSet_cons_self]

theorem loadStep_eval_fst (o : GenOracle) (cfg : TerrainConfig) (rng : Rng)
    (g : GenState) (G : ChunkT × GenState)
    (hG : chunkGenerate o cfg rng (newChunk 0 0) g = G)
    (hgen : G.1.isGenerated = true) (hbuilt : G.1.isBuilt = false) :
    (loadStep o cfg rng ([], g, 0) ⟨0, 0, 0⟩).1 =
      [(chunkKeyChars 0 0, chunkBuildMesh G.1)] := by
  rw [loadStep_eval o cfg rng g G hG hgen hbuilt]

theorem loadStep_eval_gen (o : GenOracle) (cfg : TerrainConfig) (rng : Rng)
    (g : GenState) (G : ChunkT × GenState)
    (hG : chunkGenerate o cfg rng (newChunk 0 0) g = G)
    (hgen : G.1.isGenerated = true) (hbuilt : G.1.isBuilt = false) :
    (loadStep o cfg rng ([], g, 0) ⟨0, 0, 0⟩).2.1 = G.2 := by
  rw [loadStep_eval o cfg rng g G hG hgen hbuilt]

/-- `World.update(0, 0)` on a renderDistance-0 world with no live
chunks: chunk `(0, 0)` is created, generated and meshed; nothing is
unloaded; the block cache is untouched. -/
theorem treeUpdate_facts (w : WorldT) (hrd : w.renderDistance = 0)
    (hchunks : w.chunks = [])
    (hv : ValidGen treeOracle DEFAULT_TERRAIN_CONFIG w.gen) :
    worldUpdate treeOracle DEFAULT_TERRAIN_CONFIG defaultRng w 0 0 =
      { w with
        chunks := [(chunkKeyChars 0 0, chunkBuildMesh
          (chunkGenerate treeOracle DEFAULT_TERRAIN_CONFIG defaultRng
            (newChunk 0 0) w.gen).1)],
        gen := (chunkGenerate treeOracle DEFAULT_TERRAIN_CONFIG defaultRng
          (newChunk 0 0) w.gen).2 } := by
  obtain ⟨hg1, hg2, hg3, hg4, hg5, hg6⟩ := treeGenerate_facts w.gen hv
  generalize hG : chunkGenerate treeOracle DEFAULT_TERRAIN_CONFIG defaultRng
    (newChunk 0 0) w.gen = G at hg2 hg5 ⊢
  unfold worldUpdate
  dsimp only
  rw [hrd, hchunks]
  rw [show ((0 : Int).fdiv 16) = 0 from rfl]
  rw [treeCandidates]
  rw [show List.insertionSort (fun a b : Candidate => a.d2 ≤ b.d2)
    [⟨0, 0, 0⟩] = [⟨0, 0, 0⟩] from rfl]
  rw [List.foldl_cons, List.foldl_nil]
  rw [loadStep_eval_fst treeOracle DEFAULT_TERRAIN_CONFIG defaultRng w.gen G
      hG hg2 hg5,
    loadStep_eval_gen treeOracle DEFAULT_TERRAIN_CONFIG defaultRng w.gen G
      hG hg2 hg5]
  rw [show List.map (fun cand : Candidate => chunkKeyChars cand.x cand.z)
      [⟨0, 0, 0⟩] = [chunkKeyChars 0 0] from rfl]
  rw [show List.map (fun e : List Char × ChunkT => e.1)
      [(chunkKeyChars 0 0, chunkBuildMesh G.1)] = [chunkKeyChars 0 0]
      from rfl]
  rw [show List.filter (fun k => !([chunkKeyChars 0 0].contains k))
      [chunkKeyChars 0 0] = [] from by rfl]
  rw [List.foldl_nil, List.foldl_nil]

theorem LRUCache.lookup_empty (n : Nat) (k : List Char) :
    (LRUCache.empty n).lookup k = none := rfl

/-- `getBlockAt` when the cache misses and the owning chunk is live and
generated: the value comes from the chunk's voxel array. -/
theorem worldGetBlockAt_chunkhit (o : GenOracle) (cfg : TerrainConfig)
    (w : WorldT) (wx wy wz : Int) (c : ChunkT)
    (hy0 : 0 ≤ wy) (hy1 : wy < 256)
    (hcache : w.blockCache.lookup
      (cacheKeyChars (wx.fdiv 16) (wz.fdiv 16) wx wy wz) = none)
    (hc : alLookup w.chunks (chunkKeyChars (wx.fdiv 16) (wz.fdiv 16))
      = some c)
    (hg : c.isGenerated = true) :
    (worldGetBlockAt o cfg w wx wy wz).1 =
      chunkGetBlock c (wx - wx.fdiv 16 * 16) wy (wz - wz.fdiv 16 * 16) := by
  unfold worldGetBlockAt
  rw [if_neg (by omega), if_neg (by omega)]
  dsimp only
  rw [LRUCache.get_of_lookup_none _ _ hcache]
  dsimp only
  rw [hc]
  dsimp only
  rw [if_pos hg]

theorem WorldT_gen_mk (a : Int) (ch : List (List Char × ChunkT))
    (bc : LRUCache) (g : GenState) : (WorldT.mk a ch bc g).gen = g := rfl

theorem worldGetHeightAt_fst (o : GenOracle) (cfg : TerrainConfig)
    (w : WorldT) (x z : Int) :
    (worldGetHeightAt o cfg w x z).1 = (tgGetHeight o cfg w.gen x z).1 := by
  unfold worldGetHeightAt
  rfl

/-- The world of the C3 counterexample: one `update` pass at the origin
on a fresh renderDistance-0 world under `treeOracle`. -/
def treeWorld : WorldT :=
  worldUpdate treeOracle DEFAULT_TERRAIN_CONFIG defaultRng (freshWorld 0) 0 0

/-- **C3** (counterexample to the claim as stated): in `treeWorld`, the
voxel `(0, 71, 0)` lies strictly above both the column height
(`getHeightAt(0,0) = 70`) and the water level (64), yet `getBlockAt`
returns WOOD — the tree decoration pass of `Chunk.generate` puts solid
blocks above the terrain surface, so "air above surface" fails once the
owning chunk is generated. -/
theorem claim3_air_above_surface_cex :
    (worldGetHeightAt treeOracle DEFAULT_TERRAIN_CONFIG treeWorld 0 0).1
        = 70 ∧
    DEFAULT_TERRAIN_CONFIG.waterLevel = 64 ∧
    (worldGetBlockAt treeOracle DEFAULT_TERRAIN_CONFIG treeWorld 0 71 0).1
        = BlockTypeIds.WOOD ∧
    BlockTypeIds.WOOD ≠ BlockTypeIds.AIR := by
  obtain ⟨hg1, hg2, hg3, hg4, hg5, hg6⟩ :=
    treeGenerate_facts emptyGenState
      (validGen_empty treeOracle DEFAULT_TERRAIN_CONFIG)
  have ht := treeUpdate_facts (freshWorld 0) rfl rfl
    (validGen_empty treeOracle DEFAULT_TERRAIN_CONFIG)
  rw [show (freshWorld 0).gen = emptyGenState from rfl] at ht
  generalize hG : chunkGenerate treeOracle DEFAULT_TERRAIN_CONFIG defaultRng
    (newChunk 0 0) emptyGenState = G at hg1 hg2 hg6 ht
  have hch : treeWorld.chunks = [(chunkKeyChars 0 0, chunkBuildMesh G.1)] := by
    rw [treeWorld, ht]
  have hbc : treeWorld.blockCache = LRUCache.empty 15000 := by
    rw [treeWorld, ht]
    rfl
  have hgen : treeWorld.gen = G.2 := by
    rw [treeWorld, ht, WorldT_gen_mk]
  refine ⟨?_, rfl, ?_, by decide⟩
  · rw [worldGetHeightAt_fst, hgen]
    exact treeOracle_height hg6 0 0
  · rw [worldGetBlockAt_chunkhit treeOracle DEFAULT_TERRAIN_CONFIG
      treeWorld 0 71 0 _ (by norm_num) (by norm_num)
      (by rw [hbc]; exact LRUCache.lookup_empty _ _)
      (by rw [hch, show ((0 : Int).fdiv 16) = 0 from rfl]
          exact alLookup_singleton _ _)
      (by rw [chunkBuildMesh_isGenerated]; exact hg2)]
    rw [show (0 : Int) - (0 : Int).fdiv 16 * 16 = 0 from rfl]
    rw [chunkGetBlock_buildMesh]
    exact hg1

/-! ## C1: cache coherence -/

/-- Re-derive a voxel's value from the current world state, bypassing
the cache: from the owning chunk when it exists and is generated,
otherwise from the terrain generator (the two authoritative sources of
`World.getBlockAt`). -/
def rederiveBlock (o : GenOracle) (cfg : TerrainConfig) (w : WorldT)
    (wx wy wz : Int) : Nat :=
  match alLookup w.chunks (chunkKeyChars (wx.fdiv 16) (wz.fdiv 16)) with
  | some c =>
    if c.isGenerated = true then
      chunkGetBlock c (wx - wx.fdiv 16 * 16) wy (wz - wz.fdiv 16 * 16)
    else (tgGetBlockAt o cfg w.gen wx wy wz).1
  | none => (tgGetBlockAt o cfg w.gen wx wy wz).1

/-- The coherence invariant of C1: every cached voxel value agrees with
what re-deriving it from the world would yield. -/
def CacheCoherent (o : GenOracle) (cfg : TerrainConfig) (w : WorldT) :
    Prop :=
  ∀ wx wy wz v, w.blockCache.lookup
      (cacheKeyChars (wx.fdiv 16) (wz.fdiv 16) wx wy wz) = some v →
    v = rederiveBlock o cfg w wx wy wz

theorem rederiveBlock_chunkhit (o : GenOracle) (cfg : TerrainConfig)
    (w : WorldT) (wx wy wz : Int) (c : ChunkT)
    (hc : alLookup w.chunks (chunkKeyChars (wx.fdiv 16) (wz.fdiv 16))
      = some c)
    (hg : c.isGenerated = true) :
    rederiveBlock o cfg w wx wy wz =
      chunkGetBlock c (wx - wx.fdiv 16 * 16) wy (wz - wz.fdiv 16 * 16) := by
  unfold rederiveBlock
  rw [hc]
  dsimp only
  rw [if_pos hg]

theorem WorldT_chunks_mk (a : Int) (ch : List (List Char × ChunkT))
    (bc : LRUCache) (g : GenState) : (WorldT.mk a ch bc g).chunks = ch := rfl

theorem WorldT_blockCache_mk (a : Int) (ch : List (List Char × ChunkT))
    (bc : LRUCache) (g : GenState) :
    (WorldT.mk a ch bc g).blockCache = bc := rfl

/-- `getBlockAt` as the `fb` fallback: cache miss and no live generated
chunk — classify through the generator, cache the result. -/
theorem worldGetBlockAt_fallback (o : GenOracle) (cfg : TerrainConfig)
    (w : WorldT) (wx wy wz : Int)
    (hy0 : 0 ≤ wy) (hy1 : wy < 256)
    (hcache : w.blockCache.lookup
      (cacheKeyChars (wx.fdiv 16) (wz.fdiv 16) wx wy wz) = none)
    (hc : alLookup w.chunks (chunkKeyChars (wx.fdiv 16) (wz.fdiv 16))
      = none) :
    worldGetBlockAt o cfg w wx wy wz =
      ((tgGetBlockAt o cfg w.gen wx wy wz).1,
        { w with
          gen := (tgGetBlockAt o cfg w.gen wx wy wz).2
          blockCache := LRUCache.set w.blockCache
            (cacheKeyChars (wx.fdiv 16) (wz.fdiv 16) wx wy wz)
            (tgGetBlockAt o cfg w.gen wx wy wz).1 }) := by
  unfold worldGetBlockAt
  rw [if_neg (by omega), if_neg (by omega)]
  dsimp only
  rw [LRUCache.get_of_lookup_none _ _ hcache]
  dsimp only
  rw [hc]

/-- The generator classifies `(0, 71, 0)` as air (71 is above both the
uniform terrain height 70 and the water level 64). -/
theorem treeOracle_block71 {s : GenState}
    (hv : ValidGen treeOracle DEFAULT_TERRAIN_CONFIG s) :
    (tgGetBlockAt treeOracle DEFAULT_TERRAIN_CONFIG s 0 71 0).1 =
      BlockTypeIds.AIR := by
  unfold tgGetBlockAt
  dsimp only
  rw [calcColumnInfo_fst hv, treeOracle_colinfo]
  exact determineBlock_above_water_air treeOracle DEFAULT_TERRAIN_CONFIG
    0 71 0 treeColInfo (by norm_num [DEFAULT_TERRAIN_CONFIG])
    (by norm_num [treeColInfo]) (by norm_num [DEFAULT_TERRAIN_CONFIG])

/-- The generator state primed with the one column the pre-read
computes. -/
def primedTreeState : GenState := ⟨[(((0 : Int), (0 : Int)), treeColInfo)]⟩

theorem validGen_primedTree :
    ValidGen treeOracle DEFAULT_TERRAIN_CONFIG primedTreeState := by
  intro x z info h
  unfold primedTreeState GenState.lookupCol at h
  by_cases hk : (((0 : Int), (0 : Int)) : Int × Int) = (x, z)
  · injection hk with h1 h2
    subst h1
    subst h2
    rw [alLookup_singleton] at h
    injection h with hv
    rw [← hv, treeOracle_colinfo]
  · rw [alLookup_singleton_ne _ hk] at h
    cases h

theorem treeOracle_state71 :
    (tgGetBlockAt treeOracle DEFAULT_TERRAIN_CONFIG emptyGenState
      0 71 0).2 = primedTreeState := by
  rw [tgGetBlockAt_snd, calcColumnInfo_snd]
  rw [show emptyGenState.lookupCol (0, 0) = none from rfl]
  rw [treeOracle_colinfo]
  rfl

/-- The pre-read world of the C1 counterexample: `getBlockAt(0,71,0)` on
a fresh world falls back to the generator, returns AIR and caches it. -/
def treeWorldR : WorldT :=
  (worldGetBlockAt treeOracle DEFAULT_TERRAIN_CONFIG (freshWorld 0)
    0 71 0).2

theorem treeWorldR_eq :
    treeWorldR = {
      renderDistance := 0
      chunks := []
      blockCache := LRUCache.set (LRUCache.empty 15000)
        (cacheKeyChars 0 0 0 71 0) BlockTypeIds.AIR
      gen := primedTreeState } := by
  rw [treeWorldR]
  rw [worldGetBlockAt_fallback treeOracle DEFAULT_TERRAIN_CONFIG
    (freshWorld 0) 0 71 0 (by norm_num) (by norm_num) rfl rfl]
  rw [show (freshWorld 0).gen = emptyGenState from rfl]
  rw [treeOracle_state71, treeOracle_block71 (validGen_empty _ _)]
  rw [show (0 : Int).fdiv 16 = 0 from rfl]
  rfl

/-- The C1 counterexample world: the pre-read world after one `update`
pass, which generates chunk `(0, 0)` without touching the cache. -/
def treeWorldC1 : WorldT :=
  worldUpdate treeOracle DEFAULT_TERRAIN_CONFIG defaultRng treeWorldR 0 0

/-- **C1** (counterexample to the claim as stated): the state reached by
`getBlockAt(0,71,0)` (fallback read, caches AIR) followed by
`update(0,0)` (generates chunk `(0,0)`, including the tree whose trunk
occupies `(0,71,0)`) violates cache coherence — the cache still answers
AIR while the owning generated chunk holds WOOD.  `Chunk.generate`
never invalidates cache entries. -/
theorem claim1_cache_coherence_cex :
    ¬ CacheCoherent treeOracle DEFAULT_TERRAIN_CONFIG treeWorldC1 := by
  intro hcoh
  obtain ⟨hg1, hg2, hg3, hg4, hg5, hg6⟩ :=
    treeGenerate_facts primedTreeState validGen_primedTree
  have ht := treeUpdate_facts treeWorldR
    (by rw [treeWorldR_eq]) (by rw [treeWorldR_eq])
    (by rw [show treeWorldR.gen = primedTreeState from by rw [treeWorldR_eq]]
        exact validGen_primedTree)
  rw [show treeWorldR.gen = primedTreeState from by rw [treeWorldR_eq]] at ht
  generalize hG : chunkGenerate treeOracle DEFAULT_TERRAIN_CONFIG defaultRng
    (newChunk 0 0) primedTreeState = G at hg1 hg2 hg6 ht
  have hch1 : treeWorldC1.chunks =
      [(chunkKeyChars 0 0, chunkBuildMesh G.1)] := by
    rw [treeWorldC1, ht, WorldT_chunks_mk]
  have hbc1 : treeWorldC1.blockCache = LRUCache.set (LRUCache.empty 15000)
      (cacheKeyChars 0 0 0 71 0) BlockTypeIds.AIR := by
    rw [treeWorldC1, ht, WorldT_blockCache_mk, treeWorldR_eq]
  have hlook : treeWorldC1.blockCache.lookup
      (cacheKeyChars ((0 : Int).fdiv 16) ((0 : Int).fdiv 16) 0 71 0) =
      some BlockTypeIds.AIR := by
    rw [hbc1, show (0 : Int).fdiv 16 = 0 from rfl]
    exact LRUCache.lookup_set_self _ _ _
  have hco := hcoh 0 71 0 BlockTypeIds.AIR hlook
  rw [rederiveBlock_chunkhit treeOracle DEFAULT_TERRAIN_CONFIG treeWorldC1
    0 71 0 (chunkBuildMesh G.1)
    (by rw [show (0 : Int).fdiv 16 = 0 from rfl, hch1]
        exact alLookup_singleton _ _)
    (by rw [chunkBuildMesh_isGenerated]; exact hg2)] at hco
  rw [show (0 : Int) - (0 : Int).fdiv 16 * 16 = 0 from rfl,
    chunkGetBlock_buildMesh, hg1] at hco
  exact absurd hco (by decide)

theorem chunkRebuildMesh_isGenerated (c : ChunkT) :
    (chunkRebuildMesh c).isGenerated = c.isGenerated := by
  unfold chunkRebuildMesh chunkBuildMesh
  split <;> rfl

/-- On a cache miss with a live generated chunk, `getBlockAt` agrees
with re-derivation. -/
theorem getBlockAt_coherent_of_miss (o : GenOracle) (cfg : TerrainConfig)
    (w : WorldT) (wx wy wz : Int) (c : ChunkT)
    (hy0 : 0 ≤ wy) (hy1 : wy < 256)
    (hcache : w.blockCache.lookup
      (cacheKeyChars (wx.fdiv 16) (wz.fdiv 16) wx wy wz) = none)
    (hc : alLookup w.chunks (chunkKeyChars (wx.fdiv 16) (wz.fdiv 16))
      = some c)
    (hg : c.isGenerated = true) :
    (worldGetBlockAt o cfg w wx wy wz).1 =
      rederiveBlock o cfg w wx wy wz := by
  rw [worldGetBlockAt_chunkhit o cfg w wx wy wz c hy0 hy1 hcache hc hg,
    rederiveBlock_chunkhit o cfg w wx wy wz c hc hg]

/-- **C1** (amended): cache coherence is maintained across the *write*
path — a successful `World.setBlock` evicts the one affected cache key
before returning, so an immediately following `getBlockAt` at that
coordinate agrees with re-deriving from the owning chunk.  (The claim's
universal form fails: `Chunk.generate` invalidates nothing — see the
counterexample.) -/
theorem claim1_cache_coherence_amended (o : GenOracle) (cfg : TerrainConfig)
    (w : WorldT) (x y z : Int) (T : Nat) (c : ChunkT)
    (hy0 : 0 ≤ y) (hy1 : y < 256)
    (hc : alLookup w.chunks (chunkKeyChars (x.fdiv 16) (z.fdiv 16))
      = some c)
    (hg : c.isGenerated = true) :
    ((worldSetBlock o cfg w x y z T).2).blockCache.lookup
      (cacheKeyChars (x.fdiv 16) (z.fdiv 16) x y z) = none ∧
    (worldGetBlockAt o cfg (worldSetBlock o cfg w x y z T).2 x y z).1 =
      rederiveBlock o cfg (worldSetBlock o cfg w x y z T).2 x y z := by
  have hy : ¬(y < 0 ∨ 256 ≤ y) := by omega
  rw [worldSetBlock_success o cfg w x y z T c hy hc hg]
  have hc1g : (chunkSetBlock c (x - x.fdiv 16 * 16) y
      (z - z.fdiv 16 * 16) T).isGenerated = true := by
    rw [chunkSetBlock_isGenerated]
    exact hg
  refine ⟨LRUCache.lookup_delete_self _ _, ?_⟩
  refine getBlockAt_coherent_of_miss o cfg _ x y z
    (chunkRebuildMesh (chunkSetBlock c (x - x.fdiv 16 * 16) y
      (z - z.fdiv 16 * 16) T)) hy0 hy1 ?_ ?_ ?_
  · exact LRUCache.lookup_delete_self _ _
  · exact alSet_lookup_self _ _ _
  · rw [chunkRebuildMesh_isGenerated]
    exact hc1g

/-- Witness for the amended C1 at a concrete successful write. -/
theorem claim1_cache_coherence_amended_witness :
    ((worldSetBlock zeroOracle DEFAULT_TERRAIN_CONFIG worldW 2 6 3 8).2
      ).blockCache.lookup
      (cacheKeyChars ((2 : Int).fdiv 16) ((3 : Int).fdiv 16) 2 6 3)
      = none ∧
    (worldGetBlockAt zeroOracle DEFAULT_TERRAIN_CONFIG
      (worldSetBlock zeroOracle DEFAULT_TERRAIN_CONFIG worldW 2 6 3 8).2
      2 6 3).1 =
      rederiveBlock zeroOracle DEFAULT_TERRAIN_CONFIG
        (worldSetBlock zeroOracle DEFAULT_TERRAIN_CONFIG worldW 2 6 3 8).2
        2 6 3 :=
  claim1_cache_coherence_amended zeroOracle DEFAULT_TERRAIN_CONFIG worldW
    2 6 3 8 stoneChunk (by norm_num) (by norm_num) (by rfl) rfl

/-- Witness for C7: a stone voxel next to an air voxel, in a fresh
all-air chunk, renders its face. -/
theorem claim7_face_visibility_witness :
    (3 : Nat) ≠ BlockTypeIds.AIR ∧ isVegetationBlock 3 = false ∧
    shouldRenderFace (newChunk 0 0) 0 1 0 3
      ((3 : Nat) == BlockTypeIds.WATER) = true :=
  ⟨by decide, by decide,
    (claim7_face_visibility (newChunk 0 0) 0 1 0 3 (by decide)
      (by decide)).2.1 (by decide)⟩
/-! ## C4: the streaming bound of `World.update` -/

section C4Helpers

variable {κ ν : Type} [BEq κ] [LawfulBEq κ]

/-- A key with a successful lookup occurs in the key list. -/
theorem alLookup_isSome_mem (l : List (κ × ν)) (k : κ)
    (h : (alLookup l k).isSome = true) : k ∈ l.map (·.1) := by
  induction l with
  | nil => rw [alLookup_nil] at h; simp at h
  | cons e t ih =>
    rw [alLookup_cons] at h
    rw [List.map_cons]
    by_cases he : (e.1 == k) = true
    · exact List.mem_cons.mpr (Or.inl (eq_of_beq he).symm)
    · rw [if_neg he] at h
      exact List.mem_cons.mpr (Or.inr (ih h))

/-- An absent key stays absent under `Map.delete`. -/
theorem alLookup_erase_none (l : List (κ × ν)) (k k' : κ)
    (h : alLookup l k' = none) : alLookup (alErase l k) k' = none := by
  by_cases hk : k = k'
  · subst hk; exact alLookup_erase_self l k
  · rw [alLookup_erase_ne l hk]; exact h

/-- A fold of deletions leaves a key not in the deleted list untouched. -/
theorem eraseFold_not_mem (ks : List κ) (m : List (κ × ν)) (k : κ)
    (h : k ∉ ks) :
    alLookup (ks.foldl (fun m' k' => alErase m' k') m) k = alLookup m k := by
  induction ks generalizing m with
  | nil => rfl
  | cons a t ih =>
    rw [List.foldl_cons]
    rw [ih _ (fun hm => h (List.mem_cons_of_mem _ hm))]
    exact alLookup_erase_ne m
      (fun he => h (List.mem_cons.mpr (Or.inl he.symm)))

/-- A fold of deletions removes every key in the deleted list. -/
theorem eraseFold_mem_none (ks : List κ) (m : List (κ × ν)) (k : κ)
    (h : k ∈ ks) :
    alLookup (ks.foldl (fun m' k' => alErase m' k') m) k = none := by
  induction ks generalizing m with
  | nil => cases h
  | cons a t ih =>
    rw [List.foldl_cons]
    by_cases ht : k ∈ t
    · exact ih _ ht
    · have ha : a = k := by
        rcases List.mem_cons.mp h with h1 | h2
        · exact h1.symm
        · exact absurd h2 ht
      subst ha
      refine foldl_invariant (fun m' => alLookup m' a = none)
        (fun m' k' => alErase m' k') t (alErase m a)
        (alLookup_erase_self m a) ?_
      intro m' k' _ hm'
      exact alLookup_erase_none m' k' a hm'

end C4Helpers

/-- An absent cache key stays absent under a fold of prefix deletions. -/
theorem delFold_none_pres (ks : List (List Char)) (cc : LRUCache)
    (K : List Char) (h : cc.lookup K = none) :
    (ks.foldl (fun c k' => LRUCache.deleteStartingWith c (k' ++ ['_']))
      cc).lookup K = none := by
  refine foldl_invariant (fun c => LRUCache.lookup c K = none)
    (fun c k' => LRUCache.deleteStartingWith c (k' ++ ['_'])) ks cc h ?_
  intro c k' _ hc
  cases hs : strStartsWith K (k' ++ ['_']) with
  | true => exact LRUCache.lookup_deleteStartingWith_of_match c _ K hs
  | false =>
    rw [LRUCache.lookup_deleteStartingWith_of_not_match c _ K hs]
    exact hc

/-- A fold of prefix deletions over a key list removes every cache entry
whose key extends a member of the list by an underscore. -/
theorem delFold_mem_none (ks : List (List Char)) (cc : LRUCache)
    (k K : List Char) (hk : k ∈ ks)
    (hs : strStartsWith K (k ++ ['_']) = true) :
    (ks.foldl (fun c k' => LRUCache.deleteStartingWith c (k' ++ ['_']))
      cc).lookup K = none := by
  induction ks generalizing cc with
  | nil => cases hk
  | cons a t ih =>
    rw [List.foldl_cons]
    by_cases ht : k ∈ t
    · exact ih _ ht
    · have ha : a = k := by
        rcases List.mem_cons.mp hk with h1 | h2
        · exact h1.symm
        · exact absurd h2 ht
      subst ha
      exact delFold_none_pres t _ K
        (LRUCache.lookup_deleteStartingWith_of_match cc _ K hs)

/-- Key membership after one load-loop step: the candidate's own key is
present, and every previously present key remains (chunk creation and
the quota never remove map entries). -/
theorem loadStep_lookup (o : GenOracle) (cfg : TerrainConfig) (rng : Rng)
    (acc : List (List Char × ChunkT) × GenState × Nat) (cand : Candidate)
    (k : List Char) :
    (alLookup (loadStep o cfg rng acc cand).1 k).isSome = true ↔
      k = chunkKeyChars cand.x cand.z ∨
        (alLookup acc.1 k).isSome = true := by
  unfold loadStep
  dsimp only
  cases h0 : alLookup acc.1 (chunkKeyChars cand.x cand.z) with
  | some c =>
    dsimp only
    by_cases hk : k = chunkKeyChars cand.x cand.z
    · subst hk
      rw [alSet_lookup_self]
      simp
    · rw [alSet_lookup_ne _ _ (fun he => hk he.symm)]
      simp [hk]
  | none =>
    dsimp only
    by_cases hk : k = chunkKeyChars cand.x cand.z
    · subst hk
      rw [alSet_lookup_self]
      simp
    · rw [alSet_lookup_ne _ _ (fun he => hk he.symm), alLookup_append]
      rw [show alLookup [(chunkKeyChars cand.x cand.z,
          newChunk cand.x cand.z)] k = none from by
        rw [alLookup_cons,
          if_neg (fun hbeq => hk (eq_of_beq hbeq).symm), alLookup_nil]]
      simp [hk]

/-- Key membership after the whole load loop: exactly the keys of the
processed candidates plus the previously live keys. -/
theorem loadFold_lookup (o : GenOracle) (cfg : TerrainConfig) (rng : Rng)
    (l : List Candidate)
    (acc : List (List Char × ChunkT) × GenState × Nat) (k : List Char) :
    (alLookup (l.foldl (loadStep o cfg rng) acc).1 k).isSome = true ↔
      (∃ cand ∈ l, k = chunkKeyChars cand.x cand.z) ∨
        (alLookup acc.1 k).isSome = true := by
  induction l generalizing acc with
  | nil => simp
  | cons a t ih =>
    rw [List.foldl_cons, ih, loadStep_lookup]
    constructor
    · rintro (⟨cand, hc, hk⟩ | hk | hk)
      · exact Or.inl ⟨cand, List.mem_cons_of_mem _ hc, hk⟩
      · exact Or.inl ⟨a, List.mem_cons_self a t, hk⟩
      · exact Or.inr hk
    · rintro (⟨cand, hc, hk⟩ | hk)
      · rcases List.mem_cons.mp hc with h1 | h2
        · subst h1
          exact Or.inr (Or.inl hk)
        · exact Or.inl ⟨cand, h2, hk⟩
      · exact Or.inr (Or.inr hk)

/-- The unload pass keeps a key iff it is live and is a loaded key. -/
theorem unload_lookup (M1 : List (List Char × ChunkT))
    (LK : List (List Char)) (k : List Char) :
    (alLookup
        (((M1.map (·.1)).filter (fun k' => !(LK.contains k'))).foldl
          (fun m k' => alErase m k') M1) k).isSome = true ↔
      (alLookup M1 k).isSome = true ∧ k ∈ LK := by
  by_cases hmem : k ∈ (M1.map (·.1)).filter (fun k' => !(LK.contains k'))
  · rw [eraseFold_mem_none _ _ _ hmem]
    constructor
    · intro h; simp at h
    · rintro ⟨hs, hkL⟩
      have h2 := (List.mem_filter.mp hmem).2
      simp at h2
      exact absurd hkL h2
  · rw [eraseFold_not_mem _ _ _ hmem]
    constructor
    · intro h
      refine ⟨h, ?_⟩
      have hkeys := alLookup_isSome_mem _ _ h
      cases hc : LK.contains k with
      | false =>
        exact absurd (List.mem_filter.mpr ⟨hkeys, by simpa using hc⟩) hmem
      | true => simpa using hc
    · rintro ⟨h, _⟩; exact h

/-- The unload pass deletes every cache entry under a live key that is
not a loaded key. -/
theorem unload_cache_none (M1 : List (List Char × ChunkT))
    (LK : List (List Char)) (cc : LRUCache) (k K : List Char)
    (hkeys : k ∈ M1.map (·.1)) (hnotL : k ∉ LK)
    (hs : strStartsWith K (k ++ ['_']) = true) :
    (((M1.map (·.1)).filter (fun k' => !(LK.contains k'))).foldl
        (fun c k' => LRUCache.deleteStartingWith c (k' ++ ['_'])) cc).lookup
      K = none := by
  refine delFold_mem_none _ cc k K ?_ hs
  refine List.mem_filter.mpr ⟨hkeys, ?_⟩
  simpa using hnotL

/-- If `a² ≤ r²` with `0 ≤ r` then `-r ≤ a ≤ r`. -/
theorem int_sq_le (a r : Int) (hr : 0 ≤ r) (h : a * a ≤ r * r) :
    -r ≤ a ∧ a ≤ r := by
  constructor <;> nlinarith

/-- Every candidate lies within `renderDistance` of the player chunk in
squared Euclidean distance. -/
theorem worldCandidates_mem_bound {rd pcx pcz : Int} {cand : Candidate}
    (h : cand ∈ worldCandidates rd pcx pcz) :
    (cand.x - pcx) * (cand.x - pcx) + (cand.z - pcz) * (cand.z - pcz) ≤
      rd * rd := by
  unfold worldCandidates at h
  rw [List.mem_flatMap] at h
  obtain ⟨dx, hdx, h⟩ := h
  rw [List.mem_filterMap] at h
  obtain ⟨dz, hdz, h⟩ := h
  by_cases hle : dx * dx + dz * dz ≤ rd * rd
  · rw [if_pos hle] at h
    have he := Option.some.inj h
    subst he
    dsimp only
    have e1 : pcx + dx - pcx = dx := by ring
    have e2 : pcz + dz - pcz = dz := by ring
    rw [e1, e2]
    exact hle
  · rw [if_neg hle] at h
    exact Option.noConfusion h

/-- Conversely, every chunk coordinate within range is a candidate. -/
theorem worldCandidates_mem_of_bound {rd pcx pcz cx cz : Int}
    (hrd : 0 ≤ rd)
    (h : (cx - pcx) * (cx - pcx) + (cz - pcz) * (cz - pcz) ≤ rd * rd) :
    (⟨cx, cz, (cx - pcx) * (cx - pcx) + (cz - pcz) * (cz - pcz)⟩ :
        Candidate) ∈ worldCandidates rd pcx pcz := by
  have hx := int_sq_le (cx - pcx) rd hrd
    (by nlinarith [mul_self_nonneg (cz - pcz)])
  have hz := int_sq_le (cz - pcz) rd hrd
    (by nlinarith [mul_self_nonneg (cx - pcx)])
  unfold worldCandidates
  rw [List.mem_flatMap]
  refine ⟨cx - pcx, intRange_mem hx.1 hx.2, ?_⟩
  rw [List.mem_filterMap]
  refine ⟨cz - pcz, intRange_mem hz.1 hz.2, ?_⟩
  dsimp only
  rw [if_pos h]
  have e1 : pcx + (cx - pcx) = cx := by ring
  have e2 : pcz + (cz - pcz) = cz := by ring
  rw [e1, e2]

/-- After `World.update`, a key is live iff it is the key of some
candidate of this update. -/
theorem worldUpdate_chunks_lookup (o : GenOracle) (cfg : TerrainConfig)
    (rng : Rng) (w : WorldT) (px pz : Int) (k : List Char) :
    (alLookup (worldUpdate o cfg rng w px pz).chunks k).isSome = true ↔
      ∃ cand ∈ worldCandidates w.renderDistance (px.fdiv 16) (pz.fdiv 16),
        k = chunkKeyChars cand.x cand.z := by
  unfold worldUpdate
  dsimp only
  rw [unload_lookup, loadFold_lookup]
  constructor
  · rintro ⟨-, hkL⟩
    rw [List.mem_map] at hkL
    obtain ⟨cand, hcS, hk⟩ := hkL
    exact ⟨cand, (List.perm_insertionSort _ _).mem_iff.mp hcS, hk.symm⟩
  · rintro ⟨cand, hcC, hk⟩
    have hcS := (List.perm_insertionSort
      (fun a b : Candidate => a.d2 ≤ b.d2) _).mem_iff.mpr hcC
    exact ⟨Or.inl ⟨cand, hcS, hk⟩, List.mem_map.mpr ⟨cand, hcS, hk.symm⟩⟩

/-- After `World.update`, the block cache holds nothing for a previously
live chunk that is out of range. -/
theorem worldUpdate_cache_evict (o : GenOracle) (cfg : TerrainConfig)
    (rng : Rng) (w : WorldT) (px pz cx cz bx wy bz : Int)
    (hlive : (alLookup w.chunks (chunkKeyChars cx cz)).isSome = true)
    (hfar : ¬((cx - px.fdiv 16) * (cx - px.fdiv 16) +
        (cz - pz.fdiv 16) * (cz - pz.fdiv 16) ≤
        w.renderDistance * w.renderDistance)) :
    ((worldUpdate o cfg rng w px pz).blockCache).lookup
      (cacheKeyChars cx cz bx wy bz) = none := by
  unfold worldUpdate
  dsimp only
  refine unload_cache_none _ _ _ (chunkKeyChars cx cz) _ ?_ ?_
    ((cacheKey_startsWith_iff cx cz cx cz bx wy bz).mpr ⟨rfl, rfl⟩)
  · exact alLookup_isSome_mem _ _
      ((loadFold_lookup o cfg rng _ _ _).mpr (Or.inr hlive))
  · intro hL
    rw [List.mem_map] at hL
    obtain ⟨cand, hcS, hk⟩ := hL
    have hcC := (List.perm_insertionSort
      (fun a b : Candidate => a.d2 ≤ b.d2) _).mem_iff.mp hcS
    have hb := worldCandidates_mem_bound hcC
    obtain ⟨h1, h2⟩ := chunkKeyChars_inj hk
    rw [h1, h2] at hb
    exact hfar hb

/-- C4: after a single `World.update(px,pz)`, the live chunk map holds
exactly the keys of the chunk coordinates whose squared Euclidean
distance in chunk units from the player chunk `(⌊px/16⌋, ⌊pz/16⌋)` is at
most `renderDistance²` — every candidate coordinate has a chunk object,
regardless of the per-call quota — and every previously live chunk
outside that range is removed from the map with every one of its
block-cache entries evicted. -/
theorem claim4_streaming_bound (o : GenOracle) (cfg : TerrainConfig)
    (rng : Rng) (w : WorldT) (px pz : Int)
    (hrd : 0 ≤ w.renderDistance) :
    (∀ k : List Char,
      (alLookup (worldUpdate o cfg rng w px pz).chunks k).isSome = true ↔
        ∃ cx cz : Int, k = chunkKeyChars cx cz ∧
          (cx - px.fdiv 16) * (cx - px.fdiv 16) +
            (cz - pz.fdiv 16) * (cz - pz.fdiv 16) ≤
            w.renderDistance * w.renderDistance) ∧
    (∀ cx cz : Int,
      (alLookup w.chunks (chunkKeyChars cx cz)).isSome = true →
      ¬((cx - px.fdiv 16) * (cx - px.fdiv 16) +
          (cz - pz.fdiv 16) * (cz - pz.fdiv 16) ≤
          w.renderDistance * w.renderDistance) →
      alLookup (worldUpdate o cfg rng w px pz).chunks
          (chunkKeyChars cx cz) = none ∧
      ∀ bx wy bz : Int,
        ((worldUpdate o cfg rng w px pz).blockCache).lookup
          (cacheKeyChars cx cz bx wy bz) = none) := by
  constructor
  · intro k
    rw [worldUpdate_chunks_lookup]
    constructor
    · rintro ⟨cand, hcC, hk⟩
      exact ⟨cand.x, cand.z, hk, worldCandidates_mem_bound hcC⟩
    · rintro ⟨cx, cz, hk, hb⟩
      exact ⟨⟨cx, cz, (cx - px.fdiv 16) * (cx - px.fdiv 16) +
          (cz - pz.fdiv 16) * (cz - pz.fdiv 16)⟩,
        worldCandidates_mem_of_bound hrd hb, hk⟩
  · intro cx cz hlive hfar
    refine ⟨?_, fun bx wy bz =>
      worldUpdate_cache_evict o cfg rng w px pz cx cz bx wy bz hlive hfar⟩
    cases hsv : alLookup (worldUpdate o cfg rng w px pz).chunks
        (chunkKeyChars cx cz) with
    | none => rfl
    | some c =>
      exfalso
      have hsome : (alLookup (worldUpdate o cfg rng w px pz).chunks
          (chunkKeyChars cx cz)).isSome = true := by rw [hsv]; rfl
      obtain ⟨cand, hcC, hk⟩ :=
        (worldUpdate_chunks_lookup o cfg rng w px pz _).mp hsome
      have hb := worldCandidates_mem_bound hcC
      obtain ⟨h1, h2⟩ := chunkKeyChars_inj hk
      rw [← h1, ← h2] at hb
      exact hfar hb

/-- Witness for C4 at a fresh renderDistance-0 world: one update at the
origin leaves the origin chunk's key live. -/
theorem claim4_streaming_bound_witness :
    0 ≤ (freshWorld 0).renderDistance ∧
    (alLookup (worldUpdate zeroOracle DEFAULT_TERRAIN_CONFIG defaultRng
        (freshWorld 0) 0 0).chunks (chunkKeyChars 0 0)).isSome = true := by
  refine ⟨by decide, ?_⟩
  refine ((claim4_streaming_bound zeroOracle DEFAULT_TERRAIN_CONFIG
      defaultRng (freshWorld 0) 0 0 (by decide)).1
    (chunkKeyChars 0 0)).mpr ?_
  exact ⟨0, 0, rfl, by decide⟩
